import Mathlib

/-!
Shallow embedding of the trick-taking card-game engine of the Card-games
repository: the card model (`src/types/card.ts`), the deck/deal/trick/score
utilities (`src/utils/gameUtils.ts`), the Ninety-Nine redux slice
(`src/store/slices/gameSlice.ts`), and the two game-variant definitions
(`src/games/ninetyNine/index.ts`, `src/games/hearts/index.ts`).

JavaScript runtime behaviour is modelled explicitly:
* object maps keyed by id become association lists (`List (String × α)`);
* `undefined` results of lookups become `Option`;
* property accesses on `undefined` that would throw a `TypeError` are
  modelled with `Except JsFault`;
* the sources of nondeterminism used by the code (`uuidv4()`, `Date.now()`,
  `Math.random()` driving the shuffle) are passed in as explicit oracle
  arguments.
-/

set_option maxHeartbeats 1000000

namespace CardGames

/-- A JavaScript runtime fault: a `TypeError` raised by accessing a property
of `undefined` (or calling `undefined` as a function). -/
inductive JsFault where
  | typeError : JsFault
deriving DecidableEq, Repr

/-- The four suits of `enum Suit` in `src/types/card.ts`. -/
inductive Suit where
  | hearts | diamonds | clubs | spades
deriving DecidableEq, Repr, Fintype

/-- The thirteen ranks of `enum Rank` in `src/types/card.ts` (no Joker is
ever produced by the core deck builders). -/
inductive Rank where
  | ace | king | queen | jack | ten | nine | eight | seven | six | five
  | four | three | two
deriving DecidableEq, Repr, Fintype

/-- The presentation position of a card (`Position` in `src/types/card.ts`). -/
structure Position where
  x : Int
  y : Int
  zIndex : Int
deriving DecidableEq, Repr

/-- `CardType` of `src/types/card.ts` (the optional `stackId` is omitted:
none of the engine code ever writes or reads it). -/
structure Card where
  id : String
  suit : Suit
  rank : Rank
  isFaceUp : Bool
  position : Position
deriving DecidableEq, Repr

/-- Lookup in a JavaScript object used as a map keyed by id
(`state.entities.players[playerId]` and the like); a missing key yields
`undefined`, modelled as `none`. -/
def alookup (m : List (String × α)) (k : String) : Option α :=
  (m.find? (fun p => p.1 = k)).map Prod.snd

/-- Assignment `m[k] = v` on a JavaScript object used as a map: overwrites
the entry if the key is present, otherwise appends it. -/
def aput (m : List (String × α)) (k : String) (v : α) : List (String × α) :=
  if (m.find? (fun p => p.1 = k)).isSome then
    m.map (fun p => if p.1 = k then (k, v) else p)
  else
    m ++ [(k, v)]

/-- In-place update of the value at an existing key (mutation of an object
previously obtained by lookup, e.g. `player.tricksWon += 1`). Keys that are
absent are left alone; all call sites have already faulted or returned when
the key is absent. -/
def amodify (m : List (String × α)) (k : String) (f : α → α) : List (String × α) :=
  m.map (fun p => if p.1 = k then (k, f p.2) else p)

/-- `arr[i] = v` on a JavaScript array with a possibly negative index
(`indexOf` can return `-1`): an in-range index overwrites the slot and
leaves the length unchanged; any other index adds a non-index property,
leaving the array contents and length unchanged. -/
def jsArraySet (l : List α) (i : Int) (v : α) : List α :=
  if 0 ≤ i ∧ i.toNat < l.length then l.set i.toNat v else l

/-- `List.modify` for the in-range pushes `hands[j].push(card)` of the deal
loops (the loop variable `j` is always `< hands.length` there). -/
def listModify (l : List α) (i : Nat) (f : α → α) : List α :=
  match l, i with
  | [], _ => []
  | x :: xs, 0 => f x :: xs
  | x :: xs, n + 1 => x :: listModify xs n f

/-- `indexOf` on a JavaScript array of strings: the index of the first
occurrence, or `-1`. -/
def jsIndexOf (l : List String) (k : String) : Int :=
  match l.indexOf? k with
  | some n => (n : Int)
  | none => -1

/-- `deck.pop()`: removes and returns the last element of a JavaScript
array; on an empty array returns `undefined` and leaves the array empty. -/
def jsPop (l : List α) : Option α × List α :=
  (l.getLast?, l.dropLast)

/-- `getCardValue` of `src/utils/gameUtils.ts`: the numeric value table used
by `determineTrickWinner` (2..10, J=11, Q=12, K=13, A=14). -/
def getCardValue (card : Card) : Nat :=
  match card.rank with
  | .ace => 14
  | .king => 13
  | .queen => 12
  | .jack => 11
  | .ten => 10
  | .nine => 9
  | .eight => 8
  | .seven => 7
  | .six => 6
  | .five => 5
  | .four => 4
  | .three => 3
  | .two => 2

/-- `getRankValue` of `src/games/hearts/index.ts` (same table, written as a
separate function in that file; the `|| 0` fallback is unreachable because
the record is total). -/
def getRankValue (rank : Rank) : Nat :=
  match rank with
  | .two => 2
  | .three => 3
  | .four => 4
  | .five => 5
  | .six => 6
  | .seven => 7
  | .eight => 8
  | .nine => 9
  | .ten => 10
  | .jack => 11
  | .queen => 12
  | .king => 13
  | .ace => 14

/-- One iteration of the loop of `determineTrickWinner` in
`src/utils/gameUtils.ts`. The accumulator is `(winningCard, winnerIndex)`;
`winningCard` starts as `trick[0]` and can be `undefined` when the trick
array holds a hole there. A `null`/`undefined` current card is skipped
(`if (!currentCard) continue`); a present current card compared against an
`undefined` `winningCard` reads `winningCard.suit` and throws. -/
def dtwStep (trumpSuit : Option Suit) (acc : Option Card × Nat) (p : Nat × Option Card) :
    Except JsFault (Option Card × Nat) :=
  match p.2 with
  | none => .ok acc
  | some c =>
    match acc.1 with
    | none => .error .typeError
    | some w =>
      if trumpSuit = some c.suit ∧ ¬ trumpSuit = some w.suit then .ok (some c, p.1)
      else if c.suit = w.suit ∧ getCardValue w < getCardValue c then .ok (some c, p.1)
      else .ok acc

/-- `determineTrickWinner(trick, leadSuit, trumpSuit)` of
`src/utils/gameUtils.ts`. The `trick` array can contain holes at runtime
(the slice maps unresolved card ids to `undefined`), hence
`List (Option Card)`; `leadSuit` is never read by the function body;
`trumpSuit === currentCard.suit` is `false` whenever `trumpSuit` is `null`. -/
def determineTrickWinner (trick : List (Option Card)) (_leadSuit : Option Suit)
    (trumpSuit : Option Suit) : Except JsFault Nat := do
  let init : Option Card × Nat := (trick.headD none, 0)
  let r ← ((trick.drop 1).enumFrom 1).foldlM (dtwStep trumpSuit) init
  return r.2

/-- Rank order exactly as the specification lists it:
"2..10, J, Q, K, A ascending". -/
def specRankList : List Rank :=
  [.two, .three, .four, .five, .six, .seven, .eight, .nine, .ten,
   .jack, .queen, .king, .ace]

/-- Position of a rank in the specification's ascending order. -/
def specRankIndex (r : Rank) : Nat := specRankList.indexOf r

/-- Modelled from the specification's words for the Trick Resolver: a card
displaces the current winner iff (a) it is of the trump suit and the current
winner is not, or (b) it is of the current winner's suit and has strictly
higher rank in the order 2 < 3 < ... < 10 < J < Q < K < A. -/
def specDisplaces (winner challenger : Card) (trump : Option Suit) : Bool :=
  (trump = some challenger.suit ∧ ¬ trump = some winner.suit) ∨
    (challenger.suit = winner.suit ∧ specRankIndex winner.rank < specRankIndex challenger.rank)

/-- Modelled from the specification's words for the Trick Resolver:
initialize winner = slot 0, then fold the displacement rule over the
subsequent slots, returning the winning seat index. -/
def specTrickWinner (trick : List Card) (trump : Option Suit) : Nat :=
  match trick with
  | [] => 0
  | w0 :: rest =>
    (((rest.enumFrom 1).foldl
      (fun (acc : Card × Nat) (p : Nat × Card) =>
        if specDisplaces acc.1 p.2 trump then (p.2, p.1) else acc)
      (w0, 0))).2

/-- The player record of the Ninety-Nine slice (`Player` in
`src/store/slices/gameSlice.ts`); the variant file adds a `hasDeclaration`
field, absent (`undefined`) on players built by the slice. -/
structure Player where
  id : String
  name : String
  handIds : List String
  bidCardIds : List String
  revealBid : Bool
  tricksWon : Nat
  score : Int
  isActive : Bool
  hasDeclaration : Option Bool
deriving DecidableEq, Repr

/-- `calculatePlayerScore(player, tricksWon, bidCards)` of
`src/utils/gameUtils.ts`: 10 points per trick plus a flat 20-point bonus for
a non-empty bid. Call sites build `bidCards` by mapping ids through the card
map, so elements can be `undefined`; only the array length is read. -/
def calculatePlayerScore (_player : Player) (tricksWon : Nat)
    (bidCards : List (Option Card)) : Int :=
  let baseScore : Int := (tricksWon : Int) * 10
  let bidBonus : Int := if bidCards.length > 0 then 20 else 0
  baseScore + bidBonus

/-- The mutable state of the dealing loops of `dealCards` in
`src/utils/gameUtils.ts`: the deck being popped from and the per-player
hands being pushed to. -/
structure DealState where
  deck : List Card
  hands : List (List Card)
deriving DecidableEq, Repr

/-- One iteration of the inner loop of `dealCards`: `deck.pop()`, and if the
popped card is defined, push a face-up copy onto `hands[j]` (the loop always
has `j < hands.length`). -/
def dealToPlayer (s : DealState) (j : Nat) : DealState :=
  let (c?, deck') := jsPop s.deck
  match c? with
  | none => { s with deck := deck' }
  | some c =>
    { deck := deck',
      hands := listModify s.hands j (fun h => h ++ [{ c with isFaceUp := true }]) }

/-- The inner loop of `dealCards`: `for (j = 0; j < numPlayers; j++)`. -/
def dealRound (s : DealState) (numPlayers : Nat) : DealState :=
  (List.range numPlayers).foldl dealToPlayer s

/-- The outer loop of `dealCards`: `for (i = 0; i < cardsPerPlayer; i++)`. -/
def dealLoop (s : DealState) (numPlayers cardsPerPlayer : Nat) : DealState :=
  (List.range cardsPerPlayer).foldl (fun t _ => dealRound t numPlayers) s

/-- The return shape of `dealCards` in `src/utils/gameUtils.ts`. The type
carries no error channel: the function always returns this record. -/
structure DealResult where
  hands : List (List Card)
  remainingDeck : List Card
  turnupCard : Option Card
deriving DecidableEq, Repr

/-- `dealCards(deck, numPlayers, cardsPerPlayer)` of
`src/utils/gameUtils.ts`: deal round-robin by popping from the end of the
deck (silently skipping once the deck is empty), then pop one turnup card
(`|| null` when the deck is exhausted) and flip it face up. -/
def dealCards (deck : List Card) (numPlayers cardsPerPlayer : Nat) : DealResult :=
  let s := dealLoop ⟨deck, List.replicate numPlayers []⟩ numPlayers cardsPerPlayer
  let (t?, deck') := jsPop s.deck
  { hands := s.hands,
    remainingDeck := deck',
    turnupCard := t?.map (fun c => { c with isFaceUp := true }) }

/-- Total number of cards held in the hands of a `DealState`. -/
def handsSum (hands : List (List Card)) : Nat :=
  (hands.map List.length).sum

/-- `playerHand.some(c => c.suit === leadSuit)` where `playerHand` was built
by mapping hand ids through the card map: reading `.suit` of an `undefined`
element throws. -/
def jsSomeSuit (hand : List (Option Card)) (s : Suit) : Except JsFault Bool :=
  match hand with
  | [] => .ok false
  | none :: _ => .error .typeError
  | some c :: rest => if c.suit = s then .ok true else jsSomeSuit rest s

/-- `isValidPlay(card, currentTrick, playerHand, leadSuit)` of
`src/utils/gameUtils.ts`: leading any card is valid; otherwise the player
must follow the lead suit when their hand contains it. `currentTrick` is
never read. -/
def isValidPlay (card : Card) (_currentTrick : List (Option Card))
    (playerHand : List (Option Card)) (leadSuit : Option Suit) :
    Except JsFault Bool := do
  match leadSuit with
  | none => return true
  | some ls =>
    let hasLeadSuit ← jsSomeSuit playerHand ls
    if hasLeadSuit ∧ ¬ card.suit = ls then return false
    return true

/-- The game phases; the slice's `GamePhase` union has the first four
values, the Hearts variant additionally uses `'passing'`. -/
inductive GamePhase where
  | dealing | bidding | playing | scoring | passing
deriving DecidableEq, Repr

/-- `GameMode` of `src/store/slices/gameSlice.ts`. -/
inductive GameMode where
  | standard | trump | noTrump | partnership
deriving DecidableEq, Repr

/-- The error taxonomy of `GameError.type` in
`src/store/slices/gameSlice.ts`. -/
inductive GameErrorType where
  | VALIDATION | GAME_STATE | NETWORK | UNKNOWN
deriving DecidableEq, Repr

/-- `GameError` of `src/store/slices/gameSlice.ts` (the optional `details`
field is never set by the reducers and is omitted). -/
structure GameError where
  type : GameErrorType
  message : String
deriving DecidableEq, Repr

/-- `TrickHistory` of `src/store/slices/gameSlice.ts`. `cardIds` is
declared `string[]` but receives the runtime slot array; `winnerId` and
`leadSuit` are declared non-null but the slice can store `undefined`/`null`
in them (`playerIds[winnerIndex]` out of range, `leadSuit!` on a null). -/
structure TrickHistory where
  id : String
  roundNumber : Nat
  trickNumber : Nat
  cardIds : List (Option String)
  winnerId : Option String
  leadSuit : Option Suit
  timestamp : Int
deriving DecidableEq, Repr

/-- `GameSettings` of `src/store/slices/gameSlice.ts` (also the shape built
by the Ninety-Nine variant's `createInitialState`). -/
structure GameSettings where
  maxRounds : Nat
  maxTricks : Nat
  cardsPerPlayer : Nat
  allowTrump : Bool
  allowNoTrump : Bool
  allowPartnership : Bool
  scoringSystem : String
  timeLimit : Option Nat
  autoPlay : Option Bool
deriving DecidableEq, Repr

/-- The normalized entity store of the slice state. -/
structure Entities where
  players : List (String × Player)
  cards : List (String × Card)
deriving DecidableEq, Repr

/-- `GameState` of `src/store/slices/gameSlice.ts` (all fields). -/
structure GameState where
  entities : Entities
  playerIds : List String
  deckIds : List String
  turnupCardId : Option String
  gamePhase : GamePhase
  currentPlayerIndex : Int
  currentTrickCardIds : List (Option String)
  currentTrickSuit : Option Suit
  currentTrickWinner : Option String
  currentTrickLeader : Int
  tricksPlayed : Nat
  isLoading : Bool
  error : Option GameError
  lastAction : Option String
  gameStarted : Bool
  roundNumber : Nat
  gameMode : GameMode
  lastTricks : List TrickHistory
  gameSettings : GameSettings
deriving DecidableEq, Repr

/-- The `playCard` reducer of `src/store/slices/gameSlice.ts`
(lines 259-381), with the two effects it performs on trick completion —
`uuidv4()` and `Date.now()` — passed in as the oracle arguments `uuid` and
`ts`. Rejection paths assign `state.error` and return at once. On trick
completion the slots are reset to the hard-coded `[null, null, null]`; on a
round that ends before `maxRounds`, every player's per-round fields
including `score` are reset to zero. The final `state.lastAction =
'playCard'` executes on every accepted path (overwriting the
`'startNewRound'` tag set inside the new-round block). A `TypeError` on a
missing turnup-card entity or a hole in the resolved trick is a thrown
fault. `(currentPlayerIndex + 1) % playerIds.length` is modelled with
integer `emod`; it differs from JavaScript only when `playerIds` is empty
(JS stores `NaN`) or the index is negative. -/
def playCard (s : GameState) (playerId : String) (card : Card) (uuid : String)
    (ts : Int) : Except JsFault GameState := do
  match alookup s.entities.players playerId with
  | none => return { s with error := some ⟨.VALIDATION, "Invalid player ID"⟩ }
  | some player =>
    if ¬ player.handIds.contains card.id then
      return { s with error := some ⟨.VALIDATION, "Card not in player hand"⟩ }
    else if ¬ s.gamePhase = .playing then
      return { s with error := some ⟨.GAME_STATE, "Cannot play cards in current game phase"⟩ }
    else
      let leadSuit : Option Suit :=
        match s.currentTrickCardIds.head? with
        | some (some cid) => (alookup s.entities.cards cid).map Card.suit
        | _ => none
      let trick := s.currentTrickCardIds.map (fun o => o.bind (alookup s.entities.cards))
      let hand := player.handIds.map (alookup s.entities.cards)
      let valid ← isValidPlay card trick hand leadSuit
      if ¬ valid then
        return { s with error := some ⟨.VALIDATION, "Invalid card play"⟩ }
      else
        let currentPlayerIndex := jsIndexOf s.playerIds playerId
        let slots := jsArraySet s.currentTrickCardIds currentPlayerIndex (some card.id)
        let players1 := amodify s.entities.players playerId
          (fun p => { p with handIds := p.handIds.filter (fun i => ¬ i = card.id) })
        if slots.all Option.isSome then
          let trickCards := slots.map (fun o => o.bind (alookup s.entities.cards))
          let trumpSuit : Option Suit ←
            match s.turnupCardId with
            | none => pure none
            | some tid =>
              match alookup s.entities.cards tid with
              | none => throw JsFault.typeError
              | some tc => pure (some tc.suit)
          let winnerIndex ← determineTrickWinner trickCards leadSuit trumpSuit
          let winnerId := s.playerIds.get? winnerIndex
          let players2 :=
            match winnerId with
            | some wid => amodify players1 wid (fun p => { p with tricksWon := p.tricksWon + 1 })
            | none => players1
          let entry : TrickHistory :=
            { id := uuid, roundNumber := s.roundNumber, trickNumber := s.tricksPlayed + 1,
              cardIds := slots, winnerId := winnerId, leadSuit := leadSuit, timestamp := ts }
          let sBase : GameState :=
            { s with
              entities := { players := players2, cards := s.entities.cards },
              lastTricks := s.lastTricks ++ [entry],
              tricksPlayed := s.tricksPlayed + 1,
              currentTrickCardIds := [none, none, none],
              currentTrickLeader := (winnerIndex : Int),
              currentPlayerIndex := (winnerIndex : Int) }
          if s.tricksPlayed + 1 ≥ s.gameSettings.maxTricks then
            if s.roundNumber ≥ s.gameSettings.maxRounds then
              return { sBase with gamePhase := .scoring, lastAction := some "playCard" }
            else
              return { sBase with
                roundNumber := s.roundNumber + 1,
                tricksPlayed := 0,
                lastTricks := [],
                gamePhase := .dealing,
                currentTrickCardIds := [none, none, none],
                currentTrickSuit := none,
                currentTrickWinner := none,
                currentTrickLeader := 0,
                currentPlayerIndex := 0,
                error := none,
                entities :=
                  { players := s.playerIds.foldl
                      (fun ps pid => amodify ps pid
                        (fun p =>
                          { p with
                            handIds := []
                            bidCardIds := []
                            revealBid := false
                            tricksWon := 0
                            score := 0 }))
                      players2,
                    cards := s.entities.cards },
                lastAction := some "playCard" }
          else
            return { sBase with lastAction := some "playCard" }
        else
          return { s with
            entities := { players := players1, cards := s.entities.cards },
            currentTrickCardIds := slots,
            currentPlayerIndex := (s.currentPlayerIndex + 1) % (s.playerIds.length : Int),
            lastAction := some "playCard" }

/-- The `calculateScores` reducer of `src/store/slices/gameSlice.ts`
(lines 447-467): for every player it assigns (not accumulates)
`player.score = calculatePlayerScore(...)`, then resets the per-round trick
bookkeeping and sets the phase back to `'playing'`. -/
def calculateScores (s : GameState) : GameState :=
  let players1 := s.playerIds.foldl
    (fun ps pid => amodify ps pid
      (fun p => { p with
        score := calculatePlayerScore p p.tricksWon (p.bidCardIds.map (alookup s.entities.cards)) }))
    s.entities.players
  { s with
    entities := { players := players1, cards := s.entities.cards },
    gamePhase := .playing,
    currentPlayerIndex := 0,
    currentTrickCardIds := [none, none, none],
    currentTrickSuit := none,
    currentTrickWinner := none,
    currentTrickLeader := 0,
    tricksPlayed := 0,
    error := none,
    lastAction := some "calculateScores" }

/-- `x || d` on a JavaScript number option: `undefined` and `0` are falsy. -/
def jsOrNat (v : Option Nat) (d : Nat) : Nat :=
  match v with
  | some n => if n = 0 then d else n
  | none => d

/-- `x || d` on a JavaScript string option: `undefined` and `''` are falsy. -/
def jsOrStr (v : Option String) (d : String) : String :=
  match v with
  | some x => if x = "" then d else x
  | none => d

/-- The state created by `createInitialState` of
`src/games/ninetyNine/index.ts`: the slice's `GameState` shape plus the
variant's `trumpSuit` field (its players additionally carry
`hasDeclaration`, stored in `Player.hasDeclaration`). -/
structure NNState where
  entities : Entities
  playerIds : List String
  deckIds : List String
  turnupCardId : Option String
  gamePhase : GamePhase
  currentPlayerIndex : Int
  currentTrickCardIds : List (Option String)
  currentTrickSuit : Option Suit
  currentTrickWinner : Option String
  currentTrickLeader : Int
  tricksPlayed : Nat
  isLoading : Bool
  error : Option GameError
  lastAction : Option String
  gameStarted : Bool
  roundNumber : Nat
  gameMode : GameMode
  lastTricks : List TrickHistory
  trumpSuit : Option Suit
  gameSettings : GameSettings
deriving DecidableEq, Repr

/-- The payload object of a dispatched action `{actionName, playerId,
payload}`; the Ninety-Nine `performAction` hands the payload object to the
reducer unchanged, and the reducers read `payload.playerId`,
`payload.cardId`, `payload.cardIds` from it (any of which can be
`undefined`). -/
structure ActionPayload where
  playerId : Option String
  cardId : Option String
  cardIds : Option (List String)
deriving DecidableEq, Repr

/-- `rules.isValidPlay` of `src/games/ninetyNine/index.ts` (lines 29-44):
entity checks, turn check, hand membership, then the shared `isValidPlay`
utility against `state.currentTrickSuit`. A missing `cardId`
(`cards[undefined]`) behaves like a missing card entity. -/
def nnIsValidPlay (s : NNState) (cardId : Option String) (playerId : String) :
    Except JsFault Bool :=
  match cardId with
  | none => .ok false
  | some cid =>
    match alookup s.entities.cards cid, alookup s.entities.players playerId with
    | some card, some player =>
      if ¬ s.currentPlayerIndex = jsIndexOf s.playerIds playerId then .ok false
      else if ¬ player.handIds.contains cid then .ok false
      else
        isValidPlay card
          (s.currentTrickCardIds.map (fun o => o.bind (alookup s.entities.cards)))
          (player.handIds.map (alookup s.entities.cards)) s.currentTrickSuit
    | _, _ => .ok false

/-- `rules.validateAction` of `src/games/ninetyNine/index.ts`
(lines 83-115). Reading a property of a player id that is in `playerIds`
but absent from the entity map throws. The `PLACE_BID`, `DECLARE` and
`REVEAL_BID` branches short-circuit exactly as the `&&` chains do. -/
def nnValidateAction (s : NNState) (action : String) (playerId : String)
    (payload : ActionPayload) : Except JsFault Bool := do
  let playerIndex := jsIndexOf s.playerIds playerId
  if playerIndex = -1 then return false
  else if ¬ s.currentPlayerIndex = playerIndex ∧
      ¬ (action = "DECLARE" ∨ action = "REVEAL_BID") then
    return false
  else if action = "PLAY_CARD" then
    nnIsValidPlay s payload.cardId playerId
  else if action = "PLACE_BID" then
    match payload.cardIds with
    | none => return false
    | some cardIds =>
      match alookup s.entities.players playerId with
      | none => throw JsFault.typeError
      | some player =>
        return (cardIds.all (fun i => player.handIds.contains i) ∧
          cardIds.length > 0 ∧ cardIds.length ≤ 3)
  else if action = "DECLARE" then
    if ¬ s.gamePhase = .bidding then return false
    else
      match alookup s.entities.players playerId with
      | none => throw JsFault.typeError
      | some player => return player.bidCardIds.length > 0
  else if action = "REVEAL_BID" then
    if ¬ s.gamePhase = .playing then return false
    else
      match alookup s.entities.players playerId with
      | none => throw JsFault.typeError
      | some player => return ¬ player.revealBid
  else
    return true

/-- `state.playerIds.some(id => state.entities.players[id].handIds.length
=== 0)`: short-circuiting, throwing on a missing player entity. -/
def jsSomeHandEmpty (players : List (String × Player)) :
    List String → Except JsFault Bool
  | [] => .ok false
  | pid :: rest =>
    match alookup players pid with
    | none => .error .typeError
    | some p =>
      if p.handIds.length = 0 then .ok true else jsSomeHandEmpty players rest

/-- `state.playerIds.some(id => state.entities.players[id].score >= 100)`:
short-circuiting, throwing on a missing player entity. -/
def jsSomeScore100 (players : List (String × Player)) :
    List String → Except JsFault Bool
  | [] => .ok false
  | pid :: rest =>
    match alookup players pid with
    | none => .error .typeError
    | some p => if p.score ≥ 100 then .ok true else jsSomeScore100 players rest

/-- `state.playerIds.every(id => state.entities.players[id].bidCardIds.length
> 0)`: short-circuiting, throwing on a missing player entity. -/
def jsAllBid (players : List (String × Player)) :
    List String → Except JsFault Bool
  | [] => .ok true
  | pid :: rest =>
    match alookup players pid with
    | none => .error .typeError
    | some p =>
      if p.bidCardIds.length > 0 then jsAllBid players rest else .ok false

/-- The round-end scoring loop shared by the Ninety-Nine `PLAY_CARD`
reducer (lines 398-407) and `scoring.updateScores`: for every player id, in
order, `player.score += calculatePlayerScore(player, player.tricksWon,
bidCards)`, throwing on a missing player entity. -/
def nnScoreRound (cards : List (String × Card)) :
    List (String × Player) → List String → Except JsFault (List (String × Player))
  | ps, [] => .ok ps
  | ps, pid :: rest =>
    match alookup ps pid with
    | none => .error .typeError
    | some p =>
      let bidCards := p.bidCardIds.map (alookup cards)
      let roundScore := calculatePlayerScore p p.tricksWon bidCards
      nnScoreRound cards
        (amodify ps pid (fun q => { q with score := q.score + roundScore })) rest

/-- The `PLAY_CARD` action reducer of `src/games/ninetyNine/index.ts`
(lines 336-417), with `uuidv4()` and `Date.now()` passed in as the oracle
arguments `uuid` and `ts`. On completion of a trick the winner index comes
from `determineTrickWinner`, `players[winningPlayerId].tricksWon += 1` is
unguarded (throws when the index is out of range or the entity is missing),
the slot array is reset to `Array(playerIds.length).fill(null)`, and if the
round is over every player's running `score` is incremented by the round
score. -/
def nnPlayCard (s : NNState) (payload : ActionPayload) (uuid : String) (ts : Int) :
    Except JsFault NNState := do
  match payload.playerId, payload.cardId with
  | some playerId, some cardId =>
    match alookup s.entities.players playerId, alookup s.entities.cards cardId with
    | some _, some card =>
      let players1 := amodify s.entities.players playerId
        (fun p => { p with handIds := p.handIds.filter (fun i => ¬ i = cardId) })
      let playerIndex := jsIndexOf s.playerIds playerId
      let slots := jsArraySet s.currentTrickCardIds playerIndex (some cardId)
      let suit1 := if s.currentTrickLeader = playerIndex then some card.suit
        else s.currentTrickSuit
      if slots.all Option.isSome then
        let trickCards := slots.map (fun o => o.bind (alookup s.entities.cards))
        let winningPlayerIndex ← determineTrickWinner trickCards suit1 s.trumpSuit
        match s.playerIds.get? winningPlayerIndex with
        | none => throw JsFault.typeError
        | some winningPlayerId =>
          match alookup players1 winningPlayerId with
          | none => throw JsFault.typeError
          | some _ =>
            let players2 := amodify players1 winningPlayerId
              (fun p => { p with tricksWon := p.tricksWon + 1 })
            let entry : TrickHistory :=
              { id := uuid, roundNumber := s.roundNumber,
                trickNumber := s.tricksPlayed + 1, cardIds := slots,
                winnerId := some winningPlayerId, leadSuit := suit1, timestamp := ts }
            let roundOver ←
              if s.tricksPlayed + 1 ≥ s.gameSettings.maxTricks then pure true
              else jsSomeHandEmpty players2 s.playerIds
            if roundOver then
              let players3 ← nnScoreRound s.entities.cards players2 s.playerIds
              return { s with
                entities := { players := players3, cards := s.entities.cards },
                currentTrickWinner := some winningPlayerId,
                lastTricks := s.lastTricks ++ [entry],
                currentTrickLeader := (winningPlayerIndex : Int),
                currentPlayerIndex := (winningPlayerIndex : Int),
                currentTrickCardIds := List.replicate s.playerIds.length none,
                currentTrickSuit := none,
                tricksPlayed := s.tricksPlayed + 1,
                gamePhase := .scoring }
            else
              return { s with
                entities := { players := players2, cards := s.entities.cards },
                currentTrickWinner := some winningPlayerId,
                lastTricks := s.lastTricks ++ [entry],
                currentTrickLeader := (winningPlayerIndex : Int),
                currentPlayerIndex := (winningPlayerIndex : Int),
                currentTrickCardIds := List.replicate s.playerIds.length none,
                currentTrickSuit := none,
                tricksPlayed := s.tricksPlayed + 1 }
      else
        return { s with
          entities := { players := players1, cards := s.entities.cards },
          currentTrickCardIds := slots,
          currentTrickSuit := suit1,
          currentPlayerIndex := (s.currentPlayerIndex + 1) % (s.playerIds.length : Int) }
    | _, _ => return s
  | _, _ => return s

/-- The `PLACE_BID` action reducer of `src/games/ninetyNine/index.ts`
(lines 419-442). A dispatch whose payload lacks `cardIds` never reaches
this reducer (`validateAction` rejects it); called directly it would throw
inside `cardIds.includes`, modelled as an immediate fault. -/
def nnPlaceBid (s : NNState) (payload : ActionPayload) : Except JsFault NNState := do
  match payload.playerId with
  | none => return s
  | some playerId =>
    match alookup s.entities.players playerId with
    | none => return s
    | some _ =>
      match payload.cardIds with
      | none => throw JsFault.typeError
      | some cardIds =>
        let players1 := amodify s.entities.players playerId
          (fun p => { p with
            handIds := p.handIds.filter (fun i => ¬ cardIds.contains i),
            bidCardIds := cardIds })
        let allBid ← jsAllBid players1 s.playerIds
        return { s with
          entities := { players := players1, cards := s.entities.cards },
          currentPlayerIndex := (s.currentPlayerIndex + 1) % (s.playerIds.length : Int),
          gamePhase := if allBid then .playing else s.gamePhase }

/-- The `DECLARE` action reducer of `src/games/ninetyNine/index.ts`. -/
def nnDeclare (s : NNState) (payload : ActionPayload) : Except JsFault NNState :=
  match payload.playerId.bind (alookup s.entities.players) with
  | none => .ok s
  | some _ =>
    .ok { s with
      entities :=
        { players := amodify s.entities.players (payload.playerId.getD "")
            (fun p => { p with hasDeclaration := some true }),
          cards := s.entities.cards } }

/-- The `REVEAL_BID` action reducer of `src/games/ninetyNine/index.ts`. -/
def nnRevealBid (s : NNState) (payload : ActionPayload) : Except JsFault NNState :=
  match payload.playerId.bind (alookup s.entities.players) with
  | none => .ok s
  | some _ =>
    .ok { s with
      entities :=
        { players := amodify s.entities.players (payload.playerId.getD "")
            (fun p => { p with revealBid := true }),
          cards := s.entities.cards } }

/-- The per-player loop of `setup.setupRound` in
`src/games/ninetyNine/index.ts` (lines 252-259): give player `index` the
ids of `hands[index]` and reset the per-round fields (`score` is left
untouched). Assigning to a missing player entity throws. -/
def nnSetupPlayers (hands : List (List Card)) :
    List (String × Player) → List String → Nat → Except JsFault (List (String × Player))
  | ps, [], _ => .ok ps
  | ps, pid :: rest, idx =>
    match alookup ps pid with
    | none => .error .typeError
    | some _ =>
      nnSetupPlayers hands
        (amodify ps pid (fun p => { p with
          handIds := (hands.getD idx []).map Card.id,
          bidCardIds := [],
          revealBid := false,
          tricksWon := 0,
          hasDeclaration := some false }))
        rest (idx + 1)

/-- `setup.setupRound` of `src/games/ninetyNine/index.ts` (lines 212-262).
`createNinetyNineDeck()` is declared in the repository but its definition
is not among the sources; it builds a freshly shuffled deck from
`Math.random()`, so the deck is passed in as the oracle argument
`freshDeck`. `turnupCard?.id || null` treats an empty-string id as absent.
`roundIndex % playerIds.length` is modelled with natural `%`; it differs
from JavaScript only when `playerIds` is empty (JS stores `NaN`). -/
def nnSetupRound (s : NNState) (roundIndex : Nat) (freshDeck : List Card) :
    Except JsFault NNState := do
  let n := s.playerIds.length
  let result := dealCards freshDeck n 12
  let turnupCardId : Option String :=
    match result.turnupCard with
    | none => none
    | some c => if c.id = "" then none else some c.id
  let trumpSuit :=
    match result.turnupCard with
    | none => s.trumpSuit
    | some c => some c.suit
  let allCards := result.remainingDeck ++
    (match result.turnupCard with | none => [] | some c => [c]) ++
    result.hands.flatten
  let cards1 := allCards.foldl (fun m c => aput m c.id c) s.entities.cards
  let players1 ← nnSetupPlayers result.hands s.entities.players s.playerIds 0
  return { s with
    entities := { players := players1, cards := cards1 },
    currentTrickCardIds := List.replicate n none,
    currentTrickSuit := none,
    currentTrickWinner := none,
    tricksPlayed := 0,
    gamePhase := .bidding,
    currentPlayerIndex := ((roundIndex % n : Nat) : Int),
    currentTrickLeader := ((roundIndex % n : Nat) : Int),
    deckIds := result.remainingDeck.map Card.id,
    turnupCardId := turnupCardId,
    trumpSuit := trumpSuit }

/-- The `START_NEXT_ROUND` action reducer of `src/games/ninetyNine/index.ts`
(lines 468-481): no-op when the round cap or a 100-point score has been
reached, otherwise increment the round number and set up the next round.
The registry object (`createBaseCardGame`, not among the sources) is
modelled from the spec as wiring `state.setup.setupRound` to this variant's
own setup hook. -/
def nnStartNextRound (s : NNState) (freshDeck : List Card) :
    Except JsFault NNState := do
  let capped ←
    if s.roundNumber ≥ s.gameSettings.maxRounds then pure true
    else jsSomeScore100 s.entities.players s.playerIds
  if capped then return s
  else
    let s1 := { s with roundNumber := s.roundNumber + 1 }
    nnSetupRound s1 (s1.roundNumber - 1) freshDeck

/-- The settings override object optionally passed to
`createInitialState`; every field can be `undefined`. -/
structure NNSettingsInput where
  maxRounds : Option Nat
  maxTricks : Option Nat
  cardsPerPlayer : Option Nat
  allowTrump : Option Bool
  allowNoTrump : Option Bool
  allowPartnership : Option Bool
  scoringSystem : Option String
  timeLimit : Option Nat
  autoPlay : Option Bool
deriving DecidableEq, Repr

/-- `setup.createInitialState` of `src/games/ninetyNine/index.ts`
(lines 138-192): the initial variant state for a given player-id list; the
trick slot array is `Array(playerIds.length).fill(null)`. -/
def nnCreateInitialState (playerIds : List String) (settings : Option NNSettingsInput) :
    NNState :=
  { entities :=
      { players := playerIds.enum.foldl
          (fun ps p => aput ps p.2
            { id := p.2,
              name := "Player " ++ toString (p.1 + 1),
              handIds := [],
              bidCardIds := [],
              revealBid := false,
              tricksWon := 0,
              score := 0,
              isActive := p.1 = 0,
              hasDeclaration := some false }) [],
        cards := [] },
    playerIds := playerIds,
    deckIds := [],
    turnupCardId := none,
    gamePhase := .dealing,
    currentPlayerIndex := 0,
    currentTrickCardIds := List.replicate playerIds.length none,
    currentTrickSuit := none,
    currentTrickWinner := none,
    currentTrickLeader := 0,
    tricksPlayed := 0,
    isLoading := false,
    error := none,
    lastAction := none,
    gameStarted := false,
    roundNumber := 1,
    gameMode := .standard,
    lastTricks := [],
    trumpSuit := none,
    gameSettings :=
      { maxRounds := jsOrNat (settings.bind (·.maxRounds)) 9,
        maxTricks := jsOrNat (settings.bind (·.maxTricks)) 12,
        cardsPerPlayer := jsOrNat (settings.bind (·.cardsPerPlayer)) 12,
        allowTrump := (settings.bind (·.allowTrump)).getD true,
        allowNoTrump := (settings.bind (·.allowNoTrump)).getD true,
        allowPartnership := (settings.bind (·.allowPartnership)).getD false,
        scoringSystem := jsOrStr (settings.bind (·.scoringSystem)) "standard",
        timeLimit := some (jsOrNat (settings.bind (·.timeLimit)) 30),
        autoPlay := some ((settings.bind (·.autoPlay)).getD false) } }

/-- `actions.performAction` of `src/games/ninetyNine/index.ts`
(lines 321-333): validate, and when validation fails return the state
unchanged (no error is recorded); otherwise run the reducer registered for
the action name (an unregistered name returns the state unchanged). The
registry object (`createBaseCardGame`, not among the sources) is modelled
from the spec as wiring `state.rules`/`state.actions` to this variant's own
hooks. -/
def nnPerformAction (s : NNState) (action : String) (playerId : String)
    (payload : ActionPayload) (uuid : String) (ts : Int) (freshDeck : List Card) :
    Except JsFault NNState := do
  let valid ← nnValidateAction s action playerId payload
  if ¬ valid then return s
  else if action = "PLAY_CARD" then nnPlayCard s payload uuid ts
  else if action = "PLACE_BID" then nnPlaceBid s payload
  else if action = "DECLARE" then nnDeclare s payload
  else if action = "REVEAL_BID" then nnRevealBid s payload
  else if action = "START_NEXT_ROUND" then nnStartNextRound s freshDeck
  else return s

/-- One dispatched action descriptor: name, acting player, payload and —
because `createNinetyNineDeck` shuffles with unseeded `Math.random()` — the
fresh deck any round setup would deal from. -/
structure NNDispatch where
  action : String
  playerId : String
  payload : ActionPayload
  freshDeck : List Card
deriving DecidableEq, Repr

/-- One store dispatch: a thrown `TypeError` escapes the reducer, in which
case the store keeps its previous state. -/
def nnStep (s : NNState) (d : NNDispatch) (uuid : String) (ts : Int) : NNState :=
  match nnPerformAction s d.action d.playerId d.payload uuid ts d.freshDeck with
  | .ok s1 => s1
  | .error _ => s

/-- Replay of a dispatch sequence against the Ninety-Nine variant. The
`uuidv4()`/`Date.now()` values produced by the environment during the run
are supplied by the oracle list `os` (padded with a default when
exhausted). -/
def nnRun : NNState → List NNDispatch → List (String × Int) → NNState
  | s, [], _ => s
  | s, d :: ds, os =>
    nnRun (nnStep s d (os.headD ("", 0)).1 (os.headD ("", 0)).2) ds os.tail

/-- `scoring.updateScores` of `src/games/ninetyNine/index.ts`
(lines 493-499): add each player's `scoring.calculateScore` result to their
running total. -/
def nnUpdateScores (s : NNState) : Except JsFault NNState := do
  let players1 ← nnScoreRound s.entities.cards s.entities.players s.playerIds
  return { s with entities := { players := players1, cards := s.entities.cards } }

/-- A `TrickHistory` record with the two environment-derived fields
(`id` from `uuidv4()`, `timestamp` from `Date.now()`) erased. -/
structure ErasedTrick where
  roundNumber : Nat
  trickNumber : Nat
  cardIds : List (Option String)
  winnerId : Option String
  leadSuit : Option Suit
deriving DecidableEq, Repr

/-- Erase the environment-derived fields of a history record. -/
def eraseTrick (t : TrickHistory) : ErasedTrick :=
  { roundNumber := t.roundNumber, trickNumber := t.trickNumber,
    cardIds := t.cardIds, winnerId := t.winnerId, leadSuit := t.leadSuit }

/-- An `NNState` with the trick history's `uuidv4()` ids and `Date.now()`
timestamps erased; every other field is kept verbatim. -/
structure ErasedNNState where
  entities : Entities
  playerIds : List String
  deckIds : List String
  turnupCardId : Option String
  gamePhase : GamePhase
  currentPlayerIndex : Int
  currentTrickCardIds : List (Option String)
  currentTrickSuit : Option Suit
  currentTrickWinner : Option String
  currentTrickLeader : Int
  tricksPlayed : Nat
  isLoading : Bool
  error : Option GameError
  lastAction : Option String
  gameStarted : Bool
  roundNumber : Nat
  gameMode : GameMode
  lastTricks : List ErasedTrick
  trumpSuit : Option Suit
  gameSettings : GameSettings
deriving DecidableEq, Repr

/-- Project an `NNState` to its environment-independent part. -/
def eraseNN (s : NNState) : ErasedNNState :=
  { entities := s.entities,
    playerIds := s.playerIds,
    deckIds := s.deckIds,
    turnupCardId := s.turnupCardId,
    gamePhase := s.gamePhase,
    currentPlayerIndex := s.currentPlayerIndex,
    currentTrickCardIds := s.currentTrickCardIds,
    currentTrickSuit := s.currentTrickSuit,
    currentTrickWinner := s.currentTrickWinner,
    currentTrickLeader := s.currentTrickLeader,
    tricksPlayed := s.tricksPlayed,
    isLoading := s.isLoading,
    error := s.error,
    lastAction := s.lastAction,
    gameStarted := s.gameStarted,
    roundNumber := s.roundNumber,
    gameMode := s.gameMode,
    lastTricks := s.lastTricks.map eraseTrick,
    trumpSuit := s.trumpSuit,
    gameSettings := s.gameSettings }

/-- Reducer results agreeing up to the erased environment data: both fault
with the same fault, or both succeed with erasure-equal states. -/
def exceptErased : Except JsFault NNState → Except JsFault NNState → Prop
  | .ok a, .ok b => eraseNN a = eraseNN b
  | .error e, .error f => e = f
  | _, _ => False

/-- A JavaScript numeric slot that can hold a non-number: `some n` is an
integer value, `none` stands for the non-number results `undefined`/`NaN`
that arise from arithmetic on a missing `roundPoints` key. -/
abbrev JsNum := Option Int

/-- Addition where any non-number operand yields `NaN`. -/
def jsAdd (a b : JsNum) : JsNum :=
  match a, b with
  | some x, some y => some (x + y)
  | _, _ => none

/-- `x >= b` where `x` may be `NaN`/`undefined` (always `false` then). -/
def jsGe (a : JsNum) (b : Int) : Bool :=
  match a with
  | some x => x ≥ b
  | none => false

/-- The Hearts player record built by `createInitialState` of
`src/games/hearts/index.ts`. -/
structure HPlayer where
  id : String
  name : String
  handIds : List String
  passIds : List String
  tricksWon : Nat
  heartsWon : Nat
  hasQueenOfSpades : Bool
  score : JsNum
  roundScore : JsNum
  isActive : Bool
deriving DecidableEq, Repr

/-- The `specialRules` block of the Hearts settings. -/
structure HSpecialRules where
  queenOfSpades : Bool
  shootTheMoon : Bool
  jackOfDiamonds : Bool
  passThreeCards : Bool
deriving DecidableEq, Repr

/-- The Hearts `gameSettings` shape. -/
structure HSettings where
  maxRounds : Nat
  cardsPerPlayer : Nat
  allowJokers : Bool
  timeLimit : Nat
  autoPlay : Bool
  specialRules : HSpecialRules
deriving DecidableEq, Repr

/-- The Hearts variant state built by `createInitialState` of
`src/games/hearts/index.ts` (lines 127-188). -/
structure HState where
  players : List (String × HPlayer)
  cards : List (String × Card)
  playerIds : List String
  deckIds : List String
  gamePhase : GamePhase
  currentPlayerIndex : Int
  currentTrickCardIds : List (Option String)
  currentTrickLeader : Int
  currentTrickWinner : Option String
  tricksPlayed : Nat
  heartsPlayed : Bool
  isLoading : Bool
  error : Option GameError
  lastAction : Option String
  gameStarted : Bool
  roundNumber : Nat
  passDirection : String
  roundPoints : List (String × JsNum)
  lastTricks : List TrickHistory
  gameSettings : HSettings
deriving DecidableEq, Repr

/-- `arr[i]` on a JavaScript array with an `Int` index: `undefined` when out
of range. -/
def jsArrayGet (l : List α) (i : Int) : Option α :=
  if 0 ≤ i ∧ i.toNat < l.length then l.get? i.toNat else none

/-- `state.roundPoints[id] += v`: reading a missing key gives `undefined`,
so the stored result is `NaN`; otherwise ordinary addition. -/
def rpAdd (rp : List (String × JsNum)) (id : String) (v : Int) : List (String × JsNum) :=
  aput rp id (jsAdd ((alookup rp id).getD none) (some v))

/-- `rules.validateAction` of `src/games/hearts/index.ts` (lines 95-104).
The function is an arrow function, so its `this` is the enclosing lexical
`this` of the module, not the `rules` object: for `case 'PLAY_CARD'`
evaluating `this.isValidPlay(...)` throws a `TypeError` (in an ES module
`this` is `undefined`; under CommonJS output it is the exports object,
whose `isValidPlay` member is `undefined` and not callable). `PASS_CARDS`
returns the phase check; any other action returns `true`. -/
def heartsValidateAction (s : HState) (action : String) (_playerId : String) :
    Except JsFault Bool :=
  if action = "PLAY_CARD" then .error .typeError
  else if action = "PASS_CARDS" then .ok (s.gamePhase = .passing)
  else .ok true

/-- `trickCards.filter(card => card.suit === leadSuit)`: reading `.suit` of
an `undefined` element throws. -/
def jsFilterSuit : List (Option Card) → Suit → Except JsFault (List Card)
  | [], _ => .ok []
  | none :: _, _ => .error .typeError
  | some c :: rest, ls => do
    let r ← jsFilterSuit rest ls
    return (if c.suit = ls then c :: r else r)

/-- Stable insertion of a card into a list sorted by strictly descending
`getRankValue`; equal ranks keep their existing order, matching the stable
`sort((a, b) => getRankValue(b.rank) - getRankValue(a.rank))`. -/
def insertDesc (c : Card) : List Card → List Card
  | [] => [c]
  | x :: xs =>
    if getRankValue x.rank < getRankValue c.rank then c :: x :: xs
    else x :: insertDesc c xs

/-- Stable sort by descending rank value (the unique stable result of the
JavaScript comparator sort). -/
def sortByRankDesc (l : List Card) : List Card :=
  l.foldl (fun acc c => insertDesc c acc) []

/-- `trickCards.findIndex(card => card.id === winningCard.id)`: reading
`.id` of an `undefined` element throws; `-1` when absent. -/
def jsFindIndexById (target : String) : List (Option Card) → Nat → Except JsFault Int
  | [], _ => .ok (-1)
  | none :: _, _ => .error .typeError
  | some c :: rest, idx =>
    if c.id = target then .ok (idx : Int) else jsFindIndexById target rest (idx + 1)

/-- The `trickCards.forEach` accumulation of the Hearts `PLAY_CARD` reducer
(lines 372-382): each heart in the trick adds one to the winner's
`heartsWon` and to `roundPoints[winner]`; the Queen of Spades sets
`hasQueenOfSpades` and adds thirteen. Reading `.suit` of an `undefined`
trick element throws. -/
def heartsTrickAccum (winnerId : String) :
    List (Option Card) → List (String × HPlayer) × List (String × JsNum) →
    Except JsFault (List (String × HPlayer) × List (String × JsNum))
  | [], acc => .ok acc
  | none :: _, _ => .error .typeError
  | some c :: rest, (ps, rp) =>
    let ps1 :=
      if c.suit = .hearts then
        amodify ps winnerId (fun p => { p with heartsWon := p.heartsWon + 1 })
      else ps
    let rp1 := if c.suit = .hearts then rpAdd rp winnerId 1 else rp
    let ps2 :=
      if c.suit = .spades ∧ c.rank = .queen then
        amodify ps1 winnerId (fun p => { p with hasQueenOfSpades := true })
      else ps1
    let rp2 := if c.suit = .spades ∧ c.rank = .queen then rpAdd rp1 winnerId 13 else rp1
    heartsTrickAccum winnerId rest (ps2, rp2)

/-- `playerIds.some(id => players[id].handIds.length === 0)` over Hearts
players: short-circuiting, throwing on a missing entity. -/
def hSomeHandEmpty (ps : List (String × HPlayer)) : List String → Except JsFault Bool
  | [] => .ok false
  | pid :: rest =>
    match alookup ps pid with
    | none => .error .typeError
    | some p => if p.handIds.length = 0 then .ok true else hSomeHandEmpty ps rest

/-- The shoot-the-moon `findIndex` of the Hearts `PLAY_CARD` reducer
(lines 407-410): the first player with `heartsWon === 13 &&
hasQueenOfSpades`, throwing on a missing entity. -/
def heartsFindShooter (ps : List (String × HPlayer)) :
    List String → Except JsFault (Option String)
  | [] => .ok none
  | pid :: rest =>
    match alookup ps pid with
    | none => .error .typeError
    | some p =>
      if p.heartsWon = 13 ∧ p.hasQueenOfSpades then .ok (some pid)
      else heartsFindShooter ps rest

/-- The shoot-the-moon override (lines 412-422): the shooter's round points
become `0`, every other player's become `26`. -/
def heartsShootOverride (shooterId : String) (playerIds : List String)
    (rp : List (String × JsNum)) : List (String × JsNum) :=
  playerIds.foldl (fun m id => aput m id (if id = shooterId then some 0 else some 26)) rp

/-- The score-update loop (lines 425-429): `roundScore = roundPoints[id]`
(which is `undefined` on a missing key) and `score += roundPoints[id]`,
throwing on a missing player entity. -/
def heartsApplyRoundScores (rp : List (String × JsNum)) :
    List (String × HPlayer) → List String → Except JsFault (List (String × HPlayer))
  | ps, [] => .ok ps
  | ps, pid :: rest =>
    match alookup ps pid with
    | none => .error .typeError
    | some _ =>
      let v := (alookup rp pid).getD none
      heartsApplyRoundScores rp
        (amodify ps pid (fun p => { p with roundScore := v, score := jsAdd p.score v }))
        rest

/-- The round-end block of the Hearts `PLAY_CARD` reducer (lines 404-431):
when a hand has emptied, apply the shoot-the-moon override (when the
`shootTheMoon` rule is on and some player holds all thirteen hearts plus
the Queen of Spades) and then fold the round points into `roundScore` and
the running `score` of every player. Returns the updated players and round
points. -/
def heartsRoundEnd (shootRule : Bool) (playerIds : List String)
    (ps : List (String × HPlayer)) (rp : List (String × JsNum)) :
    Except JsFault (List (String × HPlayer) × List (String × JsNum)) := do
  let rp1 ←
    if shootRule then do
      let shooter ← heartsFindShooter ps playerIds
      match shooter with
      | some sid => pure (heartsShootOverride sid playerIds rp)
      | none => pure rp
    else pure rp
  let ps1 ← heartsApplyRoundScores rp1 ps playerIds
  return (ps1, rp1)

/-- The `PLAY_CARD` action reducer of `src/games/hearts/index.ts`
(lines 329-439), with `uuidv4()` and `Date.now()` as oracle arguments. The
trick winner is the highest card of the lead suit (the suit of the slot at
`currentTrickLeader`); the winner's hearts/Queen-of-Spades takings are
accumulated into `roundPoints`; when some hand has emptied the round ends
through `heartsRoundEnd` and the phase becomes `'scoring'`. -/
def heartsPlayCard (s : HState) (payload : ActionPayload) (uuid : String) (ts : Int) :
    Except JsFault HState := do
  match payload.playerId, payload.cardId with
  | some playerId, some cardId =>
    match alookup s.players playerId, alookup s.cards cardId with
    | some _, some card =>
      let players1 := amodify s.players playerId
        (fun p => { p with handIds := p.handIds.filter (fun i => ¬ i = cardId) })
      let playerIndex := jsIndexOf s.playerIds playerId
      let slots := jsArraySet s.currentTrickCardIds playerIndex (some cardId)
      let heartsPlayed1 := if card.suit = .hearts then true else s.heartsPlayed
      if slots.all Option.isSome then
        let trickCards := slots.map (fun o => o.bind (alookup s.cards))
        let leadSuit ←
          match ((jsArrayGet slots s.currentTrickLeader).join).bind (alookup s.cards) with
          | none => throw JsFault.typeError
          | some leadCard => pure leadCard.suit
        let suitCards ← jsFilterSuit trickCards leadSuit
        let sorted := sortByRankDesc suitCards
        match sorted.head? with
        | none => throw JsFault.typeError
        | some winningCard => do
          let winningIndex ← jsFindIndexById winningCard.id trickCards 0
          match (jsArrayGet s.playerIds winningIndex).bind (alookup players1) with
          | none => throw JsFault.typeError
          | some _ =>
            let winningPlayerId := (jsArrayGet s.playerIds winningIndex).getD ""
            let players2 := amodify players1 winningPlayerId
              (fun p => { p with tricksWon := p.tricksWon + 1 })
            let (players3, rp3) ← heartsTrickAccum winningPlayerId trickCards
              (players2, s.roundPoints)
            let entry : TrickHistory :=
              { id := uuid, roundNumber := s.roundNumber,
                trickNumber := s.tricksPlayed + 1, cardIds := slots,
                winnerId := some winningPlayerId, leadSuit := some leadSuit,
                timestamp := ts }
            let roundOver ← hSomeHandEmpty players3 s.playerIds
            if roundOver then
              let (players4, rp4) ←
                heartsRoundEnd s.gameSettings.specialRules.shootTheMoon
                  s.playerIds players3 rp3
              return { s with
                players := players4,
                roundPoints := rp4,
                lastTricks := s.lastTricks ++ [entry],
                currentTrickLeader := winningIndex,
                currentPlayerIndex := winningIndex,
                currentTrickCardIds := List.replicate s.playerIds.length none,
                tricksPlayed := s.tricksPlayed + 1,
                heartsPlayed := heartsPlayed1,
                gamePhase := .scoring }
            else
              return { s with
                players := players3,
                roundPoints := rp3,
                lastTricks := s.lastTricks ++ [entry],
                currentTrickLeader := winningIndex,
                currentPlayerIndex := winningIndex,
                currentTrickCardIds := List.replicate s.playerIds.length none,
                tricksPlayed := s.tricksPlayed + 1,
                heartsPlayed := heartsPlayed1 }
      else
        return { s with
          players := players1,
          currentTrickCardIds := slots,
          heartsPlayed := heartsPlayed1,
          currentPlayerIndex := (s.currentPlayerIndex + 1) % (s.playerIds.length : Int) }
    | _, _ => return s
  | _, _ => return s

/-- `playerIds.every(id => players[id].passIds.length === 3)`:
short-circuiting, throwing on a missing entity. -/
def hAllPass3 (ps : List (String × HPlayer)) : List String → Except JsFault Bool
  | [] => .ok true
  | pid :: rest =>
    match alookup ps pid with
    | none => .error .typeError
    | some p => if p.passIds.length = 3 then hAllPass3 ps rest else .ok false

/-- `getPassOffset` of `src/games/hearts/index.ts` (lines 629-636). -/
def getPassOffset (direction : String) (numPlayers : Nat) : Nat :=
  if direction = "left" then 1
  else if direction = "right" then numPlayers - 1
  else if direction = "across" then numPlayers / 2
  else 0

/-- The pass-exchange `forEach` of the `PASS_CARDS` reducer
(lines 459-470): in seat order each player's selected cards leave their
hand and are pushed onto the hand of the player `passOffset` seats away,
throwing on missing entities. -/
def heartsPassExchange (playerIds : List String) (n passOffset : Nat) :
    List (String × HPlayer) → List (Nat × String) →
    Except JsFault (List (String × HPlayer))
  | ps, [] => .ok ps
  | ps, (index, pid) :: rest =>
    match alookup ps pid with
    | none => .error .typeError
    | some player =>
      let targetIndex := (index + passOffset + n) % n
      match playerIds.get? targetIndex with
      | none => .error .typeError
      | some targetId =>
        match alookup ps targetId with
        | none => .error .typeError
        | some _ =>
          let ps1 := amodify ps pid
            (fun p => { p with handIds := p.handIds.filter (fun h => ¬ p.passIds.contains h) })
          let ps2 := amodify ps1 targetId
            (fun p => { p with handIds := p.handIds ++ player.passIds })
          heartsPassExchange playerIds n passOffset ps2 rest

/-- `playerIds.forEach(id => { players[id].passIds = []; })`, throwing on a
missing entity. -/
def hClearPass (ps : List (String × HPlayer)) :
    List String → Except JsFault (List (String × HPlayer))
  | [] => .ok ps
  | pid :: rest =>
    match alookup ps pid with
    | none => .error .typeError
    | some _ => hClearPass (amodify ps pid (fun p => { p with passIds := [] })) rest

/-- The `PASS_CARDS` action reducer of `src/games/hearts/index.ts`
(lines 441-482). -/
def heartsPassCards (s : HState) (payload : ActionPayload) : Except JsFault HState := do
  match payload.playerId, payload.cardIds with
  | some playerId, some cardIds =>
    match alookup s.players playerId with
    | none => return s
    | some _ =>
      if ¬ cardIds.length = 3 then return s
      else
        let players1 := amodify s.players playerId (fun p => { p with passIds := cardIds })
        let allSelected ← hAllPass3 players1 s.playerIds
        if allSelected then
          let n := s.playerIds.length
          let passOffset := getPassOffset s.passDirection n
          let players2 ← heartsPassExchange s.playerIds n passOffset players1
            s.playerIds.enum
          let players3 ← hClearPass players2 s.playerIds
          return { s with players := players3, gamePhase := .playing }
        else
          return { s with players := players1 }
  | _, _ => return s

/-- One player's hand dealt by the Hearts `dealCards` (the inner `for`):
`cardsPerPlayer` pops pushed in order; `deck.pop()!` on an exhausted deck
pushes `undefined`. -/
def hDealHand : List Card → Nat → List (Option Card) × List Card
  | deck, 0 => ([], deck)
  | deck, j + 1 =>
    let (c, deck1) := jsPop deck
    let (rest, deck2) := hDealHand deck1 j
    (c :: rest, deck2)

/-- The outer `for` of the Hearts `dealCards`: one block-wise hand per
player. -/
def hDealLoop : List Card → Nat → Nat → List (List (Option Card)) × List Card
  | deck, 0, _ => ([], deck)
  | deck, i + 1, k =>
    let (h, deck1) := hDealHand deck k
    let (hs, deck2) := hDealLoop deck1 i k
    (h :: hs, deck2)

/-- `setup.dealCards` of `src/games/hearts/index.ts` (lines 190-209):
block-wise deal of `Math.floor(deck.length / numPlayers)` cards per player
(the shuffled deck built by `createHeartsDeck()` with `Math.random()` is
the caller's oracle input). `numPlayers = 0` would loop forever in
JavaScript (division by zero gives `Infinity`); the model returns no hands
then, and the variant's player bounds keep that branch unreachable. -/
def heartsDealCards (deck : List Card) (numPlayers : Nat) :
    List (List (Option Card)) × List Card :=
  hDealLoop deck numPlayers (deck.length / numPlayers)

/-- `hands[index].map(card => card.id)`: throws on an `undefined` entry. -/
def hHandIds : List (Option Card) → Except JsFault (List String)
  | [] => .ok []
  | none :: _ => .error .typeError
  | some c :: rest => do
    let r ← hHandIds rest
    return c.id :: r

/-- `hands[index].findIndex(card => card.suit === CLUBS && card.rank ===
TWO)`: throws on an `undefined` entry scanned before a match. -/
def hFindTwoClubs : List (Option Card) → Except JsFault Bool
  | [] => .ok false
  | none :: _ => .error .typeError
  | some c :: rest =>
    if c.suit = .clubs ∧ c.rank = .two then .ok true else hFindTwoClubs rest

/-- `allCards.forEach(card => { cards[card.id] = card; })`: throws on an
`undefined` entry. -/
def hPutCards : List (String × Card) → List (Option Card) → Except JsFault (List (String × Card))
  | m, [] => .ok m
  | _, none :: _ => .error .typeError
  | m, some c :: rest => hPutCards (aput m c.id c) rest

/-- The per-player loop of the Hearts `setupRound` (lines 241-259): assign
the dealt hand ids, reset the per-round fields (`score` is untouched), and
move the seat pointer to the player holding the two of clubs (the last such
seat when several match). Returns the players plus the final
`currentPlayerIndex`/`currentTrickLeader`. -/
def hSetupPlayers (hands : List (List (Option Card))) :
    List (String × HPlayer) → List (Nat × String) → Int → Int →
    Except JsFault (List (String × HPlayer) × Int × Int)
  | ps, [], cpi, ctl => .ok (ps, cpi, ctl)
  | ps, (index, pid) :: rest, cpi, ctl =>
    match alookup ps pid with
    | none => .error .typeError
    | some _ =>
      match hands.get? index with
      | none => .error .typeError
      | some hand => do
        let ids ← hHandIds hand
        let hasTwo ← hFindTwoClubs hand
        let ps1 := amodify ps pid (fun p => { p with
          handIds := ids,
          passIds := [],
          tricksWon := 0,
          heartsWon := 0,
          hasQueenOfSpades := false,
          roundScore := some 0 })
        if hasTwo then hSetupPlayers hands ps1 rest (index : Int) (index : Int)
        else hSetupPlayers hands ps1 rest cpi ctl

/-- `setup.setupRound` of `src/games/hearts/index.ts` (lines 213-267), with
the freshly shuffled deck of `state.setup.dealCards` as the oracle input. -/
def heartsSetupRound (s : HState) (roundIndex : Nat) (freshDeck : List Card) :
    Except JsFault HState := do
  let n := s.playerIds.length
  let passDirections := ["left", "right", "across", "none"]
  let (hands, remainingDeck) := heartsDealCards freshDeck n
  let allCards := remainingDeck.map some ++ hands.flatten
  let cards1 ← hPutCards s.cards allCards
  let (players1, cpi, ctl) ← hSetupPlayers hands s.players s.playerIds.enum
    s.currentPlayerIndex s.currentTrickLeader
  let rp1 := s.playerIds.foldl (fun m id => aput m id (some 0)) s.roundPoints
  return { s with
    currentTrickCardIds := List.replicate n none,
    heartsPlayed := false,
    gamePhase := .passing,
    passDirection := passDirections.getD (roundIndex % 4) "",
    deckIds := remainingDeck.map Card.id,
    cards := cards1,
    players := players1,
    currentPlayerIndex := cpi,
    currentTrickLeader := ctl,
    roundPoints := rp1 }

/-- `playerIds.some(id => players[id].score >= 100)` over Hearts players
(`NaN >= 100` is `false`): short-circuiting, throwing on a missing
entity. -/
def hSomeScore100 (ps : List (String × HPlayer)) : List String → Except JsFault Bool
  | [] => .ok false
  | pid :: rest =>
    match alookup ps pid with
    | none => .error .typeError
    | some p => if jsGe p.score 100 then .ok true else hSomeScore100 ps rest

/-- The `START_NEXT_ROUND` action reducer of `src/games/hearts/index.ts`
(lines 484-499). -/
def heartsStartNextRound (s : HState) (freshDeck : List Card) :
    Except JsFault HState := do
  if s.gameSettings.maxRounds > 0 ∧ s.roundNumber ≥ s.gameSettings.maxRounds then
    return s
  else
    let reached ← hSomeScore100 s.players s.playerIds
    if reached then return s
    else
      let s1 := { s with roundNumber := s.roundNumber + 1 }
      heartsSetupRound s1 (s1.roundNumber - 1) freshDeck

/-- The Hearts settings override optionally passed to
`createInitialState`. -/
structure HSettingsInput where
  maxRounds : Option Nat
  timeLimit : Option Nat
  autoPlay : Option Bool
deriving DecidableEq, Repr

/-- `setup.createInitialState` of `src/games/hearts/index.ts`
(lines 127-188). -/
def heartsCreateInitialState (playerIds : List String)
    (settings : Option HSettingsInput) : HState :=
  { players := playerIds.enum.foldl
      (fun ps p => aput ps p.2
        { id := p.2,
          name := "Player " ++ toString (p.1 + 1),
          handIds := [],
          passIds := [],
          tricksWon := 0,
          heartsWon := 0,
          hasQueenOfSpades := false,
          score := some 0,
          roundScore := some 0,
          isActive := p.1 = 0 }) [],
    cards := [],
    playerIds := playerIds,
    deckIds := [],
    gamePhase := .passing,
    currentPlayerIndex := 0,
    currentTrickCardIds := List.replicate playerIds.length none,
    currentTrickLeader := 0,
    currentTrickWinner := none,
    tricksPlayed := 0,
    heartsPlayed := false,
    isLoading := false,
    error := none,
    lastAction := none,
    gameStarted := false,
    roundNumber := 1,
    passDirection := "left",
    roundPoints := playerIds.foldl (fun m id => aput m id (some 0)) [],
    lastTricks := [],
    gameSettings :=
      { maxRounds := jsOrNat (settings.bind (·.maxRounds)) 0,
        cardsPerPlayer := 13,
        allowJokers := false,
        timeLimit := jsOrNat (settings.bind (·.timeLimit)) 30,
        autoPlay := (settings.bind (·.autoPlay)).getD false,
        specialRules :=
          { queenOfSpades := true,
            shootTheMoon := true,
            jackOfDiamonds := false,
            passThreeCards := true } } }

/-- `actions.performAction` of `src/games/hearts/index.ts` (lines 314-326):
validate (which throws for `PLAY_CARD`, see `heartsValidateAction`) and
when validation fails return the state unchanged; otherwise run the
reducer for the action name on `{...payload, playerId}`. The registry
object (`createBaseCardGame`, not among the sources) is modelled from the
spec as wiring `state.rules`/`state.actions`/`state.setup` to this
variant's own hooks. -/
def heartsPerformAction (s : HState) (action : String) (playerId : String)
    (payload : ActionPayload) (uuid : String) (ts : Int) (freshDeck : List Card) :
    Except JsFault HState := do
  let valid ← heartsValidateAction s action playerId
  if ¬ valid then return s
  else if action = "PLAY_CARD" then
    heartsPlayCard s { payload with playerId := some playerId } uuid ts
  else if action = "PASS_CARDS" then
    heartsPassCards s { payload with playerId := some playerId }
  else if action = "START_NEXT_ROUND" then heartsStartNextRound s freshDeck
  else return s

/-- One dispatched Hearts action descriptor (the fresh deck is the oracle
for any round setup the action triggers). -/
structure HDispatch where
  action : String
  playerId : String
  payload : ActionPayload
  freshDeck : List Card
deriving DecidableEq, Repr

/-- One Hearts store dispatch: a thrown `TypeError` escapes the reducer, in
which case the store keeps its previous state. -/
def hStep (s : HState) (d : HDispatch) (uuid : String) (ts : Int) : HState :=
  match heartsPerformAction s d.action d.playerId d.payload uuid ts d.freshDeck with
  | .ok s1 => s1
  | .error _ => s

/-- Replay of a dispatch sequence against the Hearts variant. -/
def hRun : HState → List HDispatch → List (String × Int) → HState
  | s, [], _ => s
  | s, d :: ds, os =>
    hRun (hStep s d (os.headD ("", 0)).1 (os.headD ("", 0)).2) ds os.tail

/-- `scoring.calculateScore` of `src/games/hearts/index.ts`
(lines 504-520): a player's own hearts plus thirteen for the Queen of
Spades, except that a shooter (all thirteen hearts plus the Queen) scores
zero; throws on a missing player entity. Note that this function, unlike
the round-end block of the `PLAY_CARD` reducer, gives the shooter's
opponents their own (zero) takings rather than 26. -/
def heartsCalculateScore (s : HState) (playerId : String) : Except JsFault Int :=
  match alookup s.players playerId with
  | none => .error .typeError
  | some p =>
    let base : Int := (p.heartsWon : Int) + (if p.hasQueenOfSpades then 13 else 0)
    if s.gameSettings.specialRules.shootTheMoon ∧ p.heartsWon = 13 ∧ p.hasQueenOfSpades
    then .ok 0
    else .ok base

/-- The `initialState` constant of `src/store/slices/gameSlice.ts`
(lines 105-139): no players, a hard-coded three-slot trick array, and the
default settings (3 rounds, 9 tricks, 12 cards per player). -/
def initialState : GameState :=
  { entities := { players := [], cards := [] },
    playerIds := [],
    deckIds := [],
    turnupCardId := none,
    gamePhase := .dealing,
    currentPlayerIndex := 0,
    currentTrickCardIds := [none, none, none],
    currentTrickSuit := none,
    currentTrickWinner := none,
    currentTrickLeader := 0,
    tricksPlayed := 0,
    isLoading := false,
    error := none,
    lastAction := none,
    gameStarted := false,
    roundNumber := 1,
    gameMode := .standard,
    lastTricks := [],
    gameSettings :=
      { maxRounds := 3,
        maxTricks := 9,
        cardsPerPlayer := 12,
        allowTrump := true,
        allowNoTrump := true,
        allowPartnership := false,
        scoringSystem := "standard",
        timeLimit := some 30,
        autoPlay := some false } }

/-- A concrete card for test inputs (face up, zero position). -/
def mkCard (id : String) (s : Suit) (r : Rank) : Card :=
  { id := id, suit := s, rank := r, isFaceUp := true,
    position := { x := 0, y := 0, zIndex := 0 } }

/-- A concrete player record for test inputs. -/
def mkPlayer (id : String) (handIds bidCardIds : List String) (tricksWon : Nat)
    (score : Int) : Player :=
  { id := id, name := id, handIds := handIds, bidCardIds := bidCardIds,
    revealBid := false, tricksWon := tricksWon, score := score,
    isActive := true, hasDeclaration := none }

/-- Whether the looked-up player satisfies the shoot-the-moon test
`p.heartsWon === 13 && p.hasQueenOfSpades` (false for a missing entity). -/
def isShooterB (ps : List (String × HPlayer)) (pid : String) : Bool :=
  match alookup ps pid with
  | some p => p.heartsWon = 13 ∧ p.hasQueenOfSpades
  | none => false

/-- Modelled from the spec: the round score the claim asserts for a player
once the last trick has resolved — hearts taken plus 13 for the Queen of
Spades, overridden to 0 for the shooter and 26 for everyone else when a
shooter was found. -/
def specHeartsRoundScore (sh : Option String) (pid : String) (p : HPlayer) : JsNum :=
  match sh with
  | some sid => some (if pid = sid then 0 else 26)
  | none => some ((p.heartsWon : Int) + (if p.hasQueenOfSpades then 13 else 0))

/-- A concrete Hearts player for test inputs. -/
def mkHPlayer (id : String) (handIds : List String) (tricksWon heartsWon : Nat)
    (hasQueenOfSpades : Bool) (score : Int) : HPlayer :=
  { id := id, name := id, handIds := handIds, passIds := [],
    tricksWon := tricksWon, heartsWon := heartsWon,
    hasQueenOfSpades := hasQueenOfSpades, score := some score,
    roundScore := some 0, isActive := true }

/-- A concrete mid-game slice state: three players, phase `playing`, two
slots of the trick already filled with clubs, player p3 about to complete
the trick, `maxTricks` reached by that trick, and player p1 carrying a
cumulative score of 40 from earlier rounds. -/
def resetDemoState : GameState :=
  { initialState with
    gamePhase := .playing,
    playerIds := ["p1", "p2", "p3"],
    gameSettings := { initialState.gameSettings with maxTricks := 1 },
    entities :=
      { players :=
          [("p1", mkPlayer "p1" [] [] 0 40),
           ("p2", mkPlayer "p2" [] [] 0 0),
           ("p3", mkPlayer "p3" ["c3"] [] 0 0)],
        cards :=
          [("a", mkCard "a" .clubs .five),
           ("b", mkCard "b" .clubs .six),
           ("c3", mkCard "c3" .clubs .seven)] },
    currentTrickCardIds := [some "a", some "b", none] }

/-- Pointwise score growth between two player maps: every player present in
the first map is still present in the second with a score at least as
large. -/
def scoresLE (m m' : List (String × Player)) : Prop :=
  ∀ pid p, alookup m pid = some p →
    ∃ q, alookup m' pid = some q ∧ p.score ≤ q.score

/-- The slot-array invariant for the Ninety-Nine variant state: the current
trick has exactly one slot per seated player. -/
def slotsInvNN (s : NNState) : Prop :=
  s.currentTrickCardIds.length = s.playerIds.length

/-- The slot-array invariant for the Hearts variant state. -/
def slotsInvH (s : HState) : Prop :=
  s.currentTrickCardIds.length = s.playerIds.length

/-- A concrete mid-trick Ninety-Nine state: three players, the trick led by
p2 in clubs with p2's and p3's slots filled, and p1 to play the club that
completes the trick. -/
def c9DemoState : NNState :=
  { entities :=
      { players :=
          [("p1", mkPlayer "p1" ["c1", "c9"] [] 0 0),
           ("p2", mkPlayer "p2" ["c5"] [] 0 0),
           ("p3", mkPlayer "p3" ["c6"] [] 0 0)],
        cards :=
          [("c1", mkCard "c1" .clubs .five),
           ("c2", mkCard "c2" .clubs .king),
           ("c3", mkCard "c3" .clubs .two)] },
    playerIds := ["p1", "p2", "p3"],
    deckIds := [],
    turnupCardId := none,
    gamePhase := .playing,
    currentPlayerIndex := 0,
    currentTrickCardIds := [none, some "c2", some "c3"],
    currentTrickSuit := some .clubs,
    currentTrickWinner := none,
    currentTrickLeader := 1,
    tricksPlayed := 0,
    isLoading := false,
    error := none,
    lastAction := none,
    gameStarted := true,
    roundNumber := 1,
    gameMode := .standard,
    lastTricks := [],
    trumpSuit := none,
    gameSettings :=
      { maxRounds := 9,
        maxTricks := 12,
        cardsPerPlayer := 12,
        allowTrump := true,
        allowNoTrump := true,
        allowPartnership := false,
        scoringSystem := "standard",
        timeLimit := none,
        autoPlay := none } }

/-- The dispatch that completes the trick of `c9DemoState`. -/
def c9Dispatch : NNDispatch :=
  { action := "PLAY_CARD",
    playerId := "p1",
    payload := { playerId := some "p1", cardId := some "c1", cardIds := none },
    freshDeck := [] }

/-! ## Supporting lemmas -/

theorem except_pure_eq_ok (a : α) : (pure a : Except ε α) = .ok a := rfl

theorem except_ok_bind (a : α) (f : α → Except ε β) :
    (Except.ok a >>= f) = f a := rfl

theorem except_error_bind (e : ε) (f : α → Except ε β) :
    ((Except.error e : Except ε α) >>= f) = Except.error e := rfl

theorem alookup_nil (k : String) : alookup ([] : List (String × α)) k = none := rfl

theorem alookup_cons (a : String × α) (m : List (String × α)) (k : String) :
    alookup (a :: m) k = if a.1 = k then some a.2 else alookup m k := by
  unfold alookup
  by_cases h : a.1 = k
  · rw [List.find?_cons_of_pos _ (by simpa using h), if_pos h]
    rfl
  · rw [List.find?_cons_of_neg _ (by simpa using h), if_neg h]

theorem alookup_append (m1 m2 : List (String × α)) (k : String) :
    alookup (m1 ++ m2) k =
      match alookup m1 k with
      | some v => some v
      | none => alookup m2 k := by
  induction m1 with
  | nil => rfl
  | cons a m ih =>
    rw [List.cons_append, alookup_cons, alookup_cons]
    by_cases h : a.1 = k
    · simp [h]
    · simp [h, ih]

theorem alookup_replaceMap_self (m : List (String × α)) (k : String) (v : α) :
    alookup (m.map (fun p => if p.1 = k then (k, v) else p)) k =
      if (m.find? (fun p => p.1 = k)).isSome then some v else none := by
  induction m with
  | nil => rfl
  | cons a m ih =>
    rw [List.map_cons]
    by_cases h : a.1 = k
    · rw [if_pos h, alookup_cons, List.find?_cons_of_pos _ (by simpa using h)]
      simp
    · rw [if_neg h, alookup_cons, List.find?_cons_of_neg _ (by simpa using h),
        if_neg h, ih]

theorem alookup_replaceMap_ne (m : List (String × α)) (k : String) (v : α)
    (k' : String) (h : ¬ k' = k) :
    alookup (m.map (fun p => if p.1 = k then (k, v) else p)) k' = alookup m k' := by
  induction m with
  | nil => rfl
  | cons a m ih =>
    rw [List.map_cons]
    by_cases ha : a.1 = k
    · rw [if_pos ha, alookup_cons, alookup_cons, ha]
      have : ¬ (k = k') := fun hk => h hk.symm
      rw [if_neg this, if_neg (by simpa using this), ih]
    · rw [if_neg ha, alookup_cons, alookup_cons, ih]

theorem alookup_eq_none_of_find?_none (m : List (String × α)) (k : String)
    (h : m.find? (fun p => p.1 = k) = none) : alookup m k = none := by
  unfold alookup
  rw [h]
  rfl

theorem alookup_aput_self (m : List (String × α)) (k : String) (v : α) :
    alookup (aput m k v) k = some v := by
  unfold aput
  split
  · rw [alookup_replaceMap_self, if_pos (by assumption)]
  · rename_i h
    rw [alookup_append,
      alookup_eq_none_of_find?_none m k (Option.not_isSome_iff_eq_none.mp h)]
    simp [alookup_cons]

theorem alookup_aput_ne (m : List (String × α)) (k : String) (v : α)
    (k' : String) (h : ¬ k' = k) : alookup (aput m k v) k' = alookup m k' := by
  unfold aput
  split
  · rw [alookup_replaceMap_ne _ _ _ _ h]
  · rw [alookup_append]
    cases hm : alookup m k' with
    | some w => rfl
    | none =>
      show alookup [(k, v)] k' = none
      rw [alookup_cons]
      rw [if_neg (show ¬ (k, v).1 = k' from fun hk => h hk.symm)]
      rfl

theorem alookup_amodify_self (m : List (String × α)) (k : String) (f : α → α) :
    alookup (amodify m k f) k = (alookup m k).map f := by
  induction m with
  | nil => rfl
  | cons a m ih =>
    unfold amodify
    rw [List.map_cons]
    by_cases h : a.1 = k
    · rw [if_pos h, alookup_cons, alookup_cons, if_pos h]
      simp
    · unfold amodify at ih
      rw [if_neg h, alookup_cons, alookup_cons, if_neg h, if_neg h]
      exact ih

theorem alookup_amodify_ne (m : List (String × α)) (k : String) (f : α → α)
    (k' : String) (h : ¬ k' = k) :
    alookup (amodify m k f) k' = alookup m k' := by
  induction m with
  | nil => rfl
  | cons a m ih =>
    unfold amodify
    unfold amodify at ih
    rw [List.map_cons]
    by_cases ha : a.1 = k
    · rw [if_pos ha, alookup_cons, alookup_cons, ha]
      have hkk : ¬ (k = k') := fun hk => h hk.symm
      rw [if_neg hkk, if_neg (by simpa using hkk)]
      exact ih
    · rw [if_neg ha, alookup_cons, alookup_cons, ih]

theorem alookup_amodify (m : List (String × α)) (k : String) (f : α → α)
    (k' : String) :
    alookup (amodify m k f) k' =
      if k' = k then (alookup m k').map f else alookup m k' := by
  by_cases h : k' = k
  · subst h
    rw [if_pos rfl, alookup_amodify_self]
  · rw [if_neg h, alookup_amodify_ne _ _ _ _ h]

theorem isSome_alookup_amodify (m : List (String × α)) (k : String) (f : α → α)
    (k' : String) :
    (alookup (amodify m k f) k').isSome = (alookup m k').isSome := by
  rw [alookup_amodify]
  by_cases h : k' = k
  · rw [if_pos h]
    cases alookup m k' <;> rfl
  · rw [if_neg h]

theorem foldl_aput_lookup_not_mem (f : String → α) (pids : List String)
    (m : List (String × α)) (pid : String) (h : pid ∉ pids) :
    alookup (pids.foldl (fun acc id => aput acc id (f id)) m) pid = alookup m pid := by
  induction pids generalizing m with
  | nil => rfl
  | cons q rest ih =>
    rw [List.foldl_cons, ih _ (fun hm => h (List.mem_cons_of_mem q hm))]
    apply alookup_aput_ne
    intro he
    apply h
    rw [he]
    exact List.mem_cons_self q rest

theorem foldl_aput_lookup_mem (f : String → α) (pids : List String)
    (m : List (String × α)) (pid : String) (h : pid ∈ pids) :
    alookup (pids.foldl (fun acc id => aput acc id (f id)) m) pid = some (f pid) := by
  induction pids generalizing m with
  | nil => exact absurd h (List.not_mem_nil pid)
  | cons q rest ih =>
    rw [List.foldl_cons]
    by_cases hr : pid ∈ rest
    · exact ih _ hr
    · have hq : pid = q := by
        rcases List.mem_cons.mp h with h1 | h1
        · exact h1
        · exact absurd h1 hr
      subst hq
      rw [foldl_aput_lookup_not_mem f rest _ pid hr, alookup_aput_self]

theorem jsPop_nil : jsPop ([] : List α) = (none, []) := rfl

theorem jsPop_deck (l : List α) : (jsPop l).2 = l.dropLast := rfl

theorem length_listModify (l : List α) (i : Nat) (f : α → α) :
    (listModify l i f).length = l.length := by
  induction l generalizing i with
  | nil => rfl
  | cons x xs ih => cases i <;> simp [listModify, ih]

theorem length_jsArraySet (l : List α) (i : Int) (v : α) :
    (jsArraySet l i v).length = l.length := by
  unfold jsArraySet
  split <;> simp

theorem getCardValue_eq_getRankValue (c : Card) :
    getCardValue c = getRankValue c.rank := by
  cases h : c.rank <;> simp [getCardValue, getRankValue, h]

theorem getRankValue_lt_iff_specRankIndex (r1 r2 : Rank) :
    getRankValue r1 < getRankValue r2 ↔ specRankIndex r1 < specRankIndex r2 := by
  revert r1 r2
  decide

theorem specDisplaces_eq_true_iff (w c : Card) (trump : Option Suit) :
    specDisplaces w c trump = true ↔
      ((trump = some c.suit ∧ ¬ trump = some w.suit) ∨
        (c.suit = w.suit ∧ getCardValue w < getCardValue c)) := by
  simp only [specDisplaces, decide_eq_true_eq]
  constructor
  · rintro (h | h)
    · exact Or.inl h
    · refine Or.inr ⟨h.1, ?_⟩
      rw [getCardValue_eq_getRankValue, getCardValue_eq_getRankValue,
        getRankValue_lt_iff_specRankIndex]
      exact h.2
  · rintro (h | h)
    · exact Or.inl h
    · refine Or.inr ⟨h.1, ?_⟩
      have := h.2
      rw [getCardValue_eq_getRankValue, getCardValue_eq_getRankValue,
        getRankValue_lt_iff_specRankIndex] at this
      exact this

theorem dtwStep_some (trump : Option Suit) (w0 : Card) (i0 k : Nat) (c : Card) :
    dtwStep trump (some w0, i0) (k, some c) =
      .ok (if specDisplaces w0 c trump then (some c, k) else (some w0, i0)) := by
  have h0 : dtwStep trump (some w0, i0) (k, some c) =
      (if trump = some c.suit ∧ ¬ trump = some w0.suit then .ok (some c, k)
       else if c.suit = w0.suit ∧ getCardValue w0 < getCardValue c then
         .ok (some c, k)
       else .ok (some w0, i0)) := rfl
  rw [h0]
  by_cases hA : trump = some c.suit ∧ ¬ trump = some w0.suit
  · rw [if_pos hA, if_pos ((specDisplaces_eq_true_iff w0 c trump).mpr (Or.inl hA))]
  · rw [if_neg hA]
    by_cases hB : c.suit = w0.suit ∧ getCardValue w0 < getCardValue c
    · rw [if_pos hB, if_pos ((specDisplaces_eq_true_iff w0 c trump).mpr (Or.inr hB))]
    · rw [if_neg hB, if_neg]
      intro h
      rcases (specDisplaces_eq_true_iff w0 c trump).mp h with h1 | h1
      · exact hA h1
      · exact hB h1

theorem dtw_fold_eq (trump : Option Suit) (rest : List Card) (w0 : Card) (i0 k : Nat) :
    ((rest.map some).enumFrom k).foldlM (dtwStep trump) ((some w0 : Option Card), i0) =
      Except.ok
        (Prod.map some id
          ((rest.enumFrom k).foldl
            (fun (acc : Card × Nat) (p : Nat × Card) =>
              if specDisplaces acc.1 p.2 trump then (p.2, p.1) else acc) (w0, i0))) := by
  induction rest generalizing w0 i0 k with
  | nil => rfl
  | cons c cs ih =>
    rw [List.map_cons, List.enumFrom_cons, List.enumFrom_cons, List.foldlM_cons,
      List.foldl_cons, dtwStep_some]
    by_cases h : specDisplaces w0 c trump
    · simp only [h, if_true]
      simpa using ih c k (k + 1)
    · simp only [h, Bool.false_eq_true, if_false]
      simpa using ih w0 i0 (k + 1)

theorem map_listModify (l : List α) (i : Nat) (f : α → α) (g : α → β) (h : β → β)
    (hfg : ∀ x, g (f x) = h (g x)) :
    (listModify l i f).map g = listModify (l.map g) i h := by
  induction l generalizing i with
  | nil => rfl
  | cons x xs ih =>
    cases i with
    | zero => simp [listModify, hfg]
    | succ n => simp [listModify, ih]

theorem listModify_get?_self (l : List α) (i : Nat) (f : α → α) :
    (listModify l i f).get? i = (l.get? i).map f := by
  induction l generalizing i with
  | nil => rfl
  | cons x xs ih =>
    cases i with
    | zero => rfl
    | succ n => simpa [listModify] using ih n

theorem listModify_get?_ne (l : List α) (i j : Nat) (f : α → α) (hij : ¬ j = i) :
    (listModify l i f).get? j = l.get? j := by
  induction l generalizing i j with
  | nil => rfl
  | cons x xs ih =>
    cases i with
    | zero =>
      cases j with
      | zero => exact absurd rfl hij
      | succ m => rfl
    | succ n =>
      cases j with
      | zero => rfl
      | succ m => simpa [listModify] using ih n m (by omega)

theorem sum_listModify_succ (l : List Nat) (i : Nat) (hi : i < l.length) :
    (listModify l i (· + 1)).sum = l.sum + 1 := by
  induction l generalizing i with
  | nil => simp at hi
  | cons x xs ih =>
    cases i with
    | zero => simp [listModify]; omega
    | succ n =>
      have := ih n (by simpa using hi)
      simp [listModify, this]
      omega

theorem deck_dealToPlayer (s : DealState) (j : Nat) :
    (dealToPlayer s j).deck = s.deck.dropLast := by
  unfold dealToPlayer jsPop
  cases h : s.deck.getLast? <;> simp [h]

theorem hands_length_dealToPlayer (s : DealState) (j : Nat) :
    (dealToPlayer s j).hands.length = s.hands.length := by
  unfold dealToPlayer jsPop
  cases h : s.deck.getLast? <;> simp [h, length_listModify]

theorem hands_dealToPlayer_of_ne_nil (s : DealState) (j : Nat) (hd : s.deck ≠ []) :
    ∃ c : Card, (dealToPlayer s j).hands =
      listModify s.hands j (fun h => h ++ [{ c with isFaceUp := true }]) := by
  unfold dealToPlayer jsPop
  cases h : s.deck.getLast? with
  | none => exact absurd (List.getLast?_eq_none_iff.mp h) hd
  | some c => exact ⟨c, by simp [h]⟩

theorem dealRound_partial (s : DealState) (n i : Nat) (hi : i ≤ n)
    (hn : s.hands.length = n) (hd : i ≤ s.deck.length) :
    ((List.range i).foldl dealToPlayer s).deck.length = s.deck.length - i ∧
    ((List.range i).foldl dealToPlayer s).hands.length = n ∧
    (∀ j : Nat, j < i →
      (((List.range i).foldl dealToPlayer s).hands.map List.length).get? j =
        ((s.hands.map List.length).get? j).map (· + 1)) ∧
    (∀ j : Nat, i ≤ j →
      (((List.range i).foldl dealToPlayer s).hands.map List.length).get? j =
        (s.hands.map List.length).get? j) := by
  induction i with
  | zero => exact ⟨by simp, by simp [hn], fun j hj => absurd hj (by omega), fun j _ => rfl⟩
  | succ m ih =>
    obtain ⟨ihd, ihn, ihlt, ihge⟩ := ih (by omega) (by omega)
    rw [List.range_succ, List.foldl_append, List.foldl_cons, List.foldl_nil]
    set t := (List.range m).foldl dealToPlayer s with ht
    have htne : t.deck ≠ [] := by
      intro hnil
      rw [hnil] at ihd
      simp at ihd
      omega
    obtain ⟨c, hc⟩ := hands_dealToPlayer_of_ne_nil t m htne
    refine ⟨?_, ?_, ?_, ?_⟩
    · rw [deck_dealToPlayer, List.length_dropLast, ihd]
      omega
    · rw [hands_length_dealToPlayer, ihn]
    · intro j hj
      rw [hc, map_listModify t.hands m _ List.length (· + 1) (by intro x; simp)]
      rcases Nat.lt_or_ge j m with hjm | hjm
      · rw [listModify_get?_ne _ m j _ (by omega)]
        exact ihlt j hjm
      · have hjeq : j = m := by omega
        subst hjeq
        rw [listModify_get?_self]
        rw [ihge j (by omega)]
    · intro j hj
      rw [hc, map_listModify t.hands m _ List.length (· + 1) (by intro x; simp)]
      rw [listModify_get?_ne _ m j _ (by omega)]
      exact ihge j (by omega)

theorem dealRound_lengths (s : DealState) (n : Nat) (hn : s.hands.length = n)
    (hd : n ≤ s.deck.length) :
    (dealRound s n).deck.length = s.deck.length - n ∧
    (dealRound s n).hands.length = n ∧
    ∀ j : Nat, ((dealRound s n).hands.map List.length).get? j =
      if j < n then ((s.hands.map List.length).get? j).map (· + 1)
      else (s.hands.map List.length).get? j := by
  obtain ⟨h1, h2, h3, h4⟩ := dealRound_partial s n n le_rfl hn hd
  refine ⟨h1, h2, fun j => ?_⟩
  by_cases hj : j < n
  · rw [if_pos hj]; exact h3 j hj
  · rw [if_neg hj]; exact h4 j (by omega)

theorem dealLoop_lengths (s : DealState) (n k : Nat) (hn : s.hands.length = n)
    (hd : n * k ≤ s.deck.length) :
    (dealLoop s n k).deck.length = s.deck.length - n * k ∧
    (dealLoop s n k).hands.length = n ∧
    ∀ j : Nat, ((dealLoop s n k).hands.map List.length).get? j =
      ((s.hands.map List.length).get? j).map (· + k) := by
  induction k with
  | zero =>
    refine ⟨by simp [dealLoop], by simp [dealLoop, hn], fun j => ?_⟩
    simp [dealLoop]
    cases (s.hands.map List.length).get? j <;> rfl
  | succ m ih =>
    obtain ⟨ihd, ihn, ihj⟩ := ih (le_trans (by nlinarith) hd)
    have hstep : dealLoop s n (m + 1) = dealRound (dealLoop s n m) n := by
      unfold dealLoop
      rw [List.range_succ, List.foldl_append, List.foldl_cons, List.foldl_nil]
    have hd2 : n ≤ (dealLoop s n m).deck.length := by
      rw [ihd]
      have : n * (m + 1) = n * m + n := by ring
      omega
    obtain ⟨r1, r2, r3⟩ := dealRound_lengths (dealLoop s n m) n ihn hd2
    rw [hstep]
    refine ⟨?_, r2, fun j => ?_⟩
    · rw [r1, ihd]
      have : n * (m + 1) = n * m + n := by ring
      omega
    · rw [r3, ihj j]
      by_cases hj : j < n
      · rw [if_pos hj]
        cases (s.hands.map List.length).get? j with
        | none => rfl
        | some v =>
          show some (v + m + 1) = some (v + (m + 1))
          rw [Nat.add_assoc]
      · rw [if_neg hj]
        have hnone : (s.hands.map List.length).get? j = none := by
          apply List.get?_eq_none.mpr
          simp [hn]
          omega
        rw [hnone]
        rfl

theorem handsSum_dealToPlayer (s : DealState) (j : Nat) (hj : j < s.hands.length) :
    (dealToPlayer s j).deck.length + handsSum (dealToPlayer s j).hands =
      s.deck.length + handsSum s.hands := by
  unfold dealToPlayer jsPop handsSum
  cases h : s.deck.getLast? with
  | none =>
    have : s.deck = [] := List.getLast?_eq_none_iff.mp h
    simp [this]
  | some c =>
    have hne : s.deck ≠ [] := by
      intro hnil
      rw [hnil] at h
      simp at h
    simp only [h]
    rw [map_listModify s.hands j _ List.length (· + 1) (by intro x; simp)]
    rw [sum_listModify_succ _ j (by simpa using hj), List.length_dropLast]
    have : 1 ≤ s.deck.length := List.length_pos.mpr hne
    omega

theorem hands_length_dealRange (s : DealState) (i : Nat) :
    ((List.range i).foldl dealToPlayer s).hands.length = s.hands.length := by
  induction i with
  | zero => rfl
  | succ m ih =>
    rw [List.range_succ, List.foldl_append, List.foldl_cons, List.foldl_nil,
      hands_length_dealToPlayer, ih]

theorem hands_length_dealLoop (s : DealState) (n k : Nat) :
    (dealLoop s n k).hands.length = s.hands.length := by
  induction k with
  | zero => rfl
  | succ m ih =>
    have hstep : dealLoop s n (m + 1) = dealRound (dealLoop s n m) n := by
      unfold dealLoop
      rw [List.range_succ, List.foldl_append, List.foldl_cons, List.foldl_nil]
    rw [hstep]
    unfold dealRound
    rw [hands_length_dealRange, ih]

theorem handsSum_dealRound (s : DealState) (n : Nat) (hn : n ≤ s.hands.length) :
    (dealRound s n).deck.length + handsSum (dealRound s n).hands =
      s.deck.length + handsSum s.hands := by
  suffices h : ∀ i : Nat, i ≤ n →
      ((List.range i).foldl dealToPlayer s).deck.length +
        handsSum ((List.range i).foldl dealToPlayer s).hands =
        s.deck.length + handsSum s.hands by
    exact h n le_rfl
  intro i hi
  induction i with
  | zero => rfl
  | succ m ih =>
    rw [List.range_succ, List.foldl_append, List.foldl_cons, List.foldl_nil]
    have hlen : ((List.range m).foldl dealToPlayer s).hands.length = s.hands.length :=
      hands_length_dealRange s m
    rw [handsSum_dealToPlayer _ m (by rw [hlen]; omega)]
    exact ih (by omega)

theorem handsSum_dealLoop (s : DealState) (n k : Nat) (hn : n ≤ s.hands.length) :
    (dealLoop s n k).deck.length + handsSum (dealLoop s n k).hands =
      s.deck.length + handsSum s.hands := by
  induction k with
  | zero => rfl
  | succ m ih =>
    have hstep : dealLoop s n (m + 1) = dealRound (dealLoop s n m) n := by
      unfold dealLoop
      rw [List.range_succ, List.foldl_append, List.foldl_cons, List.foldl_nil]
    have hlen : (dealLoop s n m).hands.length = s.hands.length :=
      hands_length_dealLoop s n m
    rw [hstep, handsSum_dealRound (dealLoop s n m) n (by rw [hlen]; omega)]
    exact ih

theorem deck_length_dealLoop (s : DealState) (n k : Nat) :
    (dealLoop s n k).deck.length = s.deck.length - n * k := by
  have hround : ∀ t : DealState, ∀ i : Nat,
      ((List.range i).foldl dealToPlayer t).deck.length = t.deck.length - i := by
    intro t i
    induction i with
    | zero => simp
    | succ m ih =>
      rw [List.range_succ, List.foldl_append, List.foldl_cons, List.foldl_nil,
        deck_dealToPlayer, List.length_dropLast, ih]
      omega
  induction k with
  | zero => simp [dealLoop]
  | succ m ih =>
    have hstep : dealLoop s n (m + 1) = dealRound (dealLoop s n m) n := by
      unfold dealLoop
      rw [List.range_succ, List.foldl_append, List.foldl_cons, List.foldl_nil]
    rw [hstep]
    unfold dealRound
    rw [hround _ n, ih]
    have : n * (m + 1) = n * m + n := by ring
    omega

theorem scoresLE_refl (m : List (String × Player)) : scoresLE m m :=
  fun _ p hp => ⟨p, hp, le_rfl⟩

theorem scoresLE_of_eq (m m' : List (String × Player)) (h : m = m') :
    scoresLE m m' := h ▸ scoresLE_refl m

theorem scoresLE_trans (m1 m2 m3 : List (String × Player))
    (h12 : scoresLE m1 m2) (h23 : scoresLE m2 m3) : scoresLE m1 m3 := by
  intro pid p hp
  obtain ⟨q, hq, hle⟩ := h12 pid p hp
  obtain ⟨r, hr, hle'⟩ := h23 pid q hq
  exact ⟨r, hr, le_trans hle hle'⟩

theorem scoresLE_amodify (m : List (String × Player)) (k : String) (f : Player → Player)
    (hf : ∀ x, x.score ≤ (f x).score) : scoresLE m (amodify m k f) := by
  intro pid p hp
  rw [alookup_amodify]
  by_cases h : pid = k
  · rw [if_pos h, hp]
    exact ⟨f p, rfl, hf p⟩
  · rw [if_neg h]
    exact ⟨p, hp, le_rfl⟩

theorem calculatePlayerScore_nonneg (p : Player) (t : Nat) (b : List (Option Card)) :
    0 ≤ calculatePlayerScore p t b := by
  unfold calculatePlayerScore
  by_cases hb : b.length > 0
  · simp [hb]
    positivity
  · simp [hb]

theorem nnScoreRound_scoresLE (cards : List (String × Card)) :
    ∀ (pids : List String) (ps ps' : List (String × Player)),
      nnScoreRound cards ps pids = .ok ps' → scoresLE ps ps' := by
  intro pids
  induction pids with
  | nil =>
    intro ps ps' h
    injection h with h
    exact scoresLE_of_eq _ _ h
  | cons q rest ih =>
    intro ps ps' h
    unfold nnScoreRound at h
    cases hq : alookup ps q with
    | none => rw [hq] at h; cases h
    | some p =>
      rw [hq] at h
      refine scoresLE_trans _ _ _ (scoresLE_amodify ps q _ (fun x => ?_)) (ih _ _ h)
      have := calculatePlayerScore_nonneg p p.tricksWon
        (p.bidCardIds.map (alookup cards))
      simp only []
      omega

theorem nnSetupPlayers_scoresLE (hands : List (List Card)) :
    ∀ (pids : List String) (idx : Nat) (ps ps' : List (String × Player)),
      nnSetupPlayers hands ps pids idx = .ok ps' → scoresLE ps ps' := by
  intro pids
  induction pids with
  | nil =>
    intro idx ps ps' h
    injection h with h
    exact scoresLE_of_eq _ _ h
  | cons q rest ih =>
    intro idx ps ps' h
    unfold nnSetupPlayers at h
    cases hq : alookup ps q with
    | none => rw [hq] at h; cases h
    | some p =>
      rw [hq] at h
      have h' : nnSetupPlayers hands
          (amodify ps q (fun p => { p with
            handIds := (hands.getD idx []).map Card.id,
            bidCardIds := [],
            revealBid := false,
            tricksWon := 0,
            hasDeclaration := some false }))
          rest (idx + 1) = Except.ok ps' := h
      exact scoresLE_trans _ _ _
        (scoresLE_amodify ps q (fun p => { p with
            handIds := (hands.getD idx []).map Card.id,
            bidCardIds := [],
            revealBid := false,
            tricksWon := 0,
            hasDeclaration := some false }) (fun x => le_rfl))
        (ih (idx + 1) _ _ h')

theorem except_bind_ok_elim {ε α β : Type} {e : Except ε α} {f : α → Except ε β}
    {b : β} (h : (e >>= f) = .ok b) : ∃ a, e = .ok a ∧ f a = .ok b := by
  cases e with
  | error err => cases h
  | ok a => exact ⟨a, rfl, h⟩

theorem scoresLE_amodify2 (m : List (String × Player)) (k1 k2 : String)
    (f g : Player → Player) (hf : ∀ x, x.score ≤ (f x).score)
    (hg : ∀ x, x.score ≤ (g x).score) :
    scoresLE m (amodify (amodify m k1 f) k2 g) :=
  scoresLE_trans _ _ _ (scoresLE_amodify m k1 f hf)
    (scoresLE_amodify (amodify m k1 f) k2 g hg)

theorem scoresLE_hand_filter (m : List (String × Player)) (k1 cardId : String) :
    scoresLE m (amodify m k1
      (fun p => { p with handIds := p.handIds.filter (fun i => ¬ i = cardId) })) :=
  scoresLE_amodify _ _ _ (fun _ => le_rfl)

theorem scoresLE_play_updates (m : List (String × Player)) (k1 k2 cardId : String) :
    scoresLE m (amodify (amodify m k1
      (fun p => { p with handIds := p.handIds.filter (fun i => ¬ i = cardId) })) k2
      (fun p => { p with tricksWon := p.tricksWon + 1 })) :=
  scoresLE_amodify2 _ _ _ _ _ (fun _ => le_rfl) (fun _ => le_rfl)

theorem nnPlayCard_scoresLE (s : NNState) (payload : ActionPayload) (uuid : String)
    (ts : Int) (s' : NNState) (h : nnPlayCard s payload uuid ts = .ok s') :
    scoresLE s.entities.players s'.entities.players := by
  simp only [nnPlayCard, except_pure_eq_ok] at h
  split at h
  · split at h
    · split at h
      · obtain ⟨w, hdet, h⟩ := except_bind_ok_elim h
        split at h
        · cases h
        · split at h
          · cases h
          · split at h
            · rw [except_ok_bind, if_pos rfl] at h
              obtain ⟨ps3, hps3, h⟩ := except_bind_ok_elim h
              injection h with h
              subst h
              refine scoresLE_trans _ _ _ ?_ (nnScoreRound_scoresLE _ _ _ _ hps3)
              exact scoresLE_play_updates _ _ _ _
            · obtain ⟨ro, hro, h⟩ := except_bind_ok_elim h
              split at h
              · obtain ⟨ps3, hps3, h⟩ := except_bind_ok_elim h
                injection h with h
                subst h
                refine scoresLE_trans _ _ _ ?_ (nnScoreRound_scoresLE _ _ _ _ hps3)
                exact scoresLE_play_updates _ _ _ _
              · injection h with h
                subst h
                exact scoresLE_play_updates _ _ _ _
      · injection h with h
        subst h
        exact scoresLE_hand_filter _ _ _
    · injection h with h
      subst h
      exact scoresLE_refl _
  · injection h with h
    subst h
    exact scoresLE_refl _

theorem scoresLE_bid_update (m : List (String × Player)) (k : String)
    (cardIds : List String) :
    scoresLE m (amodify m k (fun p => { p with
      handIds := p.handIds.filter (fun i => ¬ cardIds.contains i),
      bidCardIds := cardIds })) :=
  scoresLE_amodify _ _ _ (fun _ => le_rfl)

theorem scoresLE_declare_update (m : List (String × Player)) (k : String) :
    scoresLE m (amodify m k (fun p => { p with hasDeclaration := some true })) :=
  scoresLE_amodify _ _ _ (fun _ => le_rfl)

theorem scoresLE_reveal_update (m : List (String × Player)) (k : String) :
    scoresLE m (amodify m k (fun p => { p with revealBid := true })) :=
  scoresLE_amodify _ _ _ (fun _ => le_rfl)

theorem nnPlaceBid_scoresLE (s : NNState) (payload : ActionPayload) (s' : NNState)
    (h : nnPlaceBid s payload = .ok s') :
    scoresLE s.entities.players s'.entities.players := by
  simp only [nnPlaceBid, except_pure_eq_ok] at h
  split at h
  · injection h with h
    subst h
    exact scoresLE_refl _
  · split at h
    · injection h with h
      subst h
      exact scoresLE_refl _
    · split at h
      · cases h
      · obtain ⟨ab, hab, h⟩ := except_bind_ok_elim h
        injection h with h
        subst h
        exact scoresLE_bid_update _ _ _

theorem nnDeclare_scoresLE (s : NNState) (payload : ActionPayload) (s' : NNState)
    (h : nnDeclare s payload = .ok s') :
    scoresLE s.entities.players s'.entities.players := by
  simp only [nnDeclare] at h
  split at h
  · injection h with h
    subst h
    exact scoresLE_refl _
  · injection h with h
    subst h
    exact scoresLE_declare_update _ _

theorem nnRevealBid_scoresLE (s : NNState) (payload : ActionPayload) (s' : NNState)
    (h : nnRevealBid s payload = .ok s') :
    scoresLE s.entities.players s'.entities.players := by
  simp only [nnRevealBid] at h
  split at h
  · injection h with h
    subst h
    exact scoresLE_refl _
  · injection h with h
    subst h
    exact scoresLE_reveal_update _ _

theorem nnSetupRound_scoresLE (s : NNState) (roundIndex : Nat) (freshDeck : List Card)
    (s' : NNState) (h : nnSetupRound s roundIndex freshDeck = .ok s') :
    scoresLE s.entities.players s'.entities.players := by
  simp only [nnSetupRound, except_pure_eq_ok] at h
  obtain ⟨ps1, hps1, h⟩ := except_bind_ok_elim h
  injection h with h
  subst h
  exact nnSetupPlayers_scoresLE _ _ _ _ _ hps1

theorem nnStartNextRound_scoresLE (s : NNState) (freshDeck : List Card) (s' : NNState)
    (h : nnStartNextRound s freshDeck = .ok s') :
    scoresLE s.entities.players s'.entities.players := by
  simp only [nnStartNextRound, except_pure_eq_ok] at h
  split at h
  · rw [except_ok_bind, if_pos rfl] at h
    injection h with h
    subst h
    exact scoresLE_refl _
  · obtain ⟨capped, hcap, h⟩ := except_bind_ok_elim h
    split at h
    · injection h with h
      subst h
      exact scoresLE_refl _
    · exact nnSetupRound_scoresLE { s with roundNumber := s.roundNumber + 1 }
        (s.roundNumber + 1 - 1) freshDeck s' h

theorem nnPerformAction_scoresLE (s : NNState) (action playerId : String)
    (payload : ActionPayload) (uuid : String) (ts : Int) (freshDeck : List Card)
    (s' : NNState) (h : nnPerformAction s action playerId payload uuid ts freshDeck = .ok s') :
    scoresLE s.entities.players s'.entities.players := by
  simp only [nnPerformAction, except_pure_eq_ok] at h
  obtain ⟨valid, hvalid, h⟩ := except_bind_ok_elim h
  split at h
  · injection h with h
    subst h
    exact scoresLE_refl _
  · split at h
    · exact nnPlayCard_scoresLE _ _ _ _ _ h
    · split at h
      · exact nnPlaceBid_scoresLE _ _ _ h
      · split at h
        · exact nnDeclare_scoresLE _ _ _ h
        · split at h
          · exact nnRevealBid_scoresLE _ _ _ h
          · split at h
            · exact nnStartNextRound_scoresLE _ _ _ h
            · injection h with h
              subst h
              exact scoresLE_refl _

theorem nnStep_scoresLE (s : NNState) (d : NNDispatch) (uuid : String) (ts : Int) :
    scoresLE s.entities.players (nnStep s d uuid ts).entities.players := by
  unfold nnStep
  cases h : nnPerformAction s d.action d.playerId d.payload uuid ts d.freshDeck with
  | ok s1 => exact nnPerformAction_scoresLE _ _ _ _ _ _ _ _ h
  | error e => exact scoresLE_refl _

theorem nnRun_scoresLE (ds : List NNDispatch) :
    ∀ (s : NNState) (os : List (String × Int)),
      scoresLE s.entities.players (nnRun s ds os).entities.players := by
  induction ds with
  | nil => exact fun s os => scoresLE_refl _
  | cons d rest ih =>
    intro s os
    exact scoresLE_trans _ _ _
      (nnStep_scoresLE s d (os.headD ("", 0)).1 (os.headD ("", 0)).2)
      (ih _ os.tail)

theorem nnPlayCard_inv (s : NNState) (payload : ActionPayload) (uuid : String)
    (ts : Int) (s' : NNState) (h : nnPlayCard s payload uuid ts = .ok s') :
    s'.playerIds = s.playerIds ∧ (slotsInvNN s → slotsInvNN s') := by
  simp only [nnPlayCard, except_pure_eq_ok] at h
  split at h
  · split at h
    · split at h
      · obtain ⟨w, hdet, h⟩ := except_bind_ok_elim h
        split at h
        · cases h
        · split at h
          · cases h
          · split at h
            · rw [except_ok_bind, if_pos rfl] at h
              obtain ⟨ps3, hps3, h⟩ := except_bind_ok_elim h
              injection h with h
              subst h
              exact ⟨rfl, fun _ => by
                simp [slotsInvNN, List.length_replicate]⟩
            · obtain ⟨ro, hro, h⟩ := except_bind_ok_elim h
              split at h
              · obtain ⟨ps3, hps3, h⟩ := except_bind_ok_elim h
                injection h with h
                subst h
                exact ⟨rfl, fun _ => by
                  simp [slotsInvNN, List.length_replicate]⟩
              · injection h with h
                subst h
                exact ⟨rfl, fun _ => by
                  simp [slotsInvNN, List.length_replicate]⟩
      · injection h with h
        subst h
        refine ⟨rfl, fun hP => ?_⟩
        show (jsArraySet s.currentTrickCardIds _ _).length = s.playerIds.length
        rw [length_jsArraySet]
        exact hP
    · injection h with h
      subst h
      exact ⟨rfl, fun hP => hP⟩
  · injection h with h
    subst h
    exact ⟨rfl, fun hP => hP⟩

theorem nnPlaceBid_inv (s : NNState) (payload : ActionPayload) (s' : NNState)
    (h : nnPlaceBid s payload = .ok s') :
    s'.playerIds = s.playerIds ∧ (slotsInvNN s → slotsInvNN s') := by
  simp only [nnPlaceBid, except_pure_eq_ok] at h
  split at h
  · injection h with h
    subst h
    exact ⟨rfl, fun hP => hP⟩
  · split at h
    · injection h with h
      subst h
      exact ⟨rfl, fun hP => hP⟩
    · split at h
      · cases h
      · obtain ⟨ab, hab, h⟩ := except_bind_ok_elim h
        injection h with h
        subst h
        exact ⟨rfl, fun hP => hP⟩

theorem nnDeclare_inv (s : NNState) (payload : ActionPayload) (s' : NNState)
    (h : nnDeclare s payload = .ok s') :
    s'.playerIds = s.playerIds ∧ (slotsInvNN s → slotsInvNN s') := by
  simp only [nnDeclare] at h
  split at h
  · injection h with h
    subst h
    exact ⟨rfl, fun hP => hP⟩
  · injection h with h
    subst h
    exact ⟨rfl, fun hP => hP⟩

theorem nnRevealBid_inv (s : NNState) (payload : ActionPayload) (s' : NNState)
    (h : nnRevealBid s payload = .ok s') :
    s'.playerIds = s.playerIds ∧ (slotsInvNN s → slotsInvNN s') := by
  simp only [nnRevealBid] at h
  split at h
  · injection h with h
    subst h
    exact ⟨rfl, fun hP => hP⟩
  · injection h with h
    subst h
    exact ⟨rfl, fun hP => hP⟩

theorem nnSetupRound_inv (s : NNState) (roundIndex : Nat) (freshDeck : List Card)
    (s' : NNState) (h : nnSetupRound s roundIndex freshDeck = .ok s') :
    s'.playerIds = s.playerIds ∧ (slotsInvNN s → slotsInvNN s') := by
  simp only [nnSetupRound, except_pure_eq_ok] at h
  obtain ⟨ps1, hps1, h⟩ := except_bind_ok_elim h
  injection h with h
  subst h
  exact ⟨rfl, fun _ => by simp [slotsInvNN, List.length_replicate]⟩

theorem nnStartNextRound_inv (s : NNState) (freshDeck : List Card) (s' : NNState)
    (h : nnStartNextRound s freshDeck = .ok s') :
    s'.playerIds = s.playerIds ∧ (slotsInvNN s → slotsInvNN s') := by
  simp only [nnStartNextRound, except_pure_eq_ok] at h
  split at h
  · rw [except_ok_bind, if_pos rfl] at h
    injection h with h
    subst h
    exact ⟨rfl, fun hP => hP⟩
  · obtain ⟨capped, hcap, h⟩ := except_bind_ok_elim h
    split at h
    · injection h with h
      subst h
      exact ⟨rfl, fun hP => hP⟩
    · obtain ⟨hpl, hinv⟩ := nnSetupRound_inv
        { s with roundNumber := s.roundNumber + 1 } (s.roundNumber + 1 - 1)
        freshDeck s' h
      exact ⟨hpl, fun hP => hinv hP⟩

theorem nnPerformAction_inv (s : NNState) (action playerId : String)
    (payload : ActionPayload) (uuid : String) (ts : Int) (freshDeck : List Card)
    (s' : NNState) (h : nnPerformAction s action playerId payload uuid ts freshDeck = .ok s') :
    s'.playerIds = s.playerIds ∧ (slotsInvNN s → slotsInvNN s') := by
  simp only [nnPerformAction, except_pure_eq_ok] at h
  obtain ⟨valid, hvalid, h⟩ := except_bind_ok_elim h
  split at h
  · injection h with h
    subst h
    exact ⟨rfl, fun hP => hP⟩
  · split at h
    · exact nnPlayCard_inv _ _ _ _ _ h
    · split at h
      · exact nnPlaceBid_inv _ _ _ h
      · split at h
        · exact nnDeclare_inv _ _ _ h
        · split at h
          · exact nnRevealBid_inv _ _ _ h
          · split at h
            · exact nnStartNextRound_inv _ _ _ h
            · injection h with h
              subst h
              exact ⟨rfl, fun hP => hP⟩

theorem nnStep_inv (s : NNState) (d : NNDispatch) (uuid : String) (ts : Int) :
    (nnStep s d uuid ts).playerIds = s.playerIds ∧
      (slotsInvNN s → slotsInvNN (nnStep s d uuid ts)) := by
  unfold nnStep
  cases h : nnPerformAction s d.action d.playerId d.payload uuid ts d.freshDeck with
  | ok s1 => exact nnPerformAction_inv _ _ _ _ _ _ _ _ h
  | error e => exact ⟨rfl, fun hP => hP⟩

theorem nnRun_inv (ds : List NNDispatch) :
    ∀ (s : NNState) (os : List (String × Int)),
      (nnRun s ds os).playerIds = s.playerIds ∧
        (slotsInvNN s → slotsInvNN (nnRun s ds os)) := by
  induction ds with
  | nil => exact fun s os => ⟨rfl, fun hP => hP⟩
  | cons d rest ih =>
    intro s os
    obtain ⟨hpl1, hinv1⟩ := nnStep_inv s d (os.headD ("", 0)).1 (os.headD ("", 0)).2
    obtain ⟨hpl2, hinv2⟩ := ih (nnStep s d (os.headD ("", 0)).1 (os.headD ("", 0)).2) os.tail
    exact ⟨hpl2.trans hpl1, fun hP => hinv2 (hinv1 hP)⟩

theorem heartsPassCards_inv (s : HState) (payload : ActionPayload) (s' : HState)
    (h : heartsPassCards s payload = .ok s') :
    s'.playerIds = s.playerIds ∧ (slotsInvH s → slotsInvH s') := by
  simp only [heartsPassCards, except_pure_eq_ok] at h
  split at h
  · split at h
    · injection h with h
      subst h
      exact ⟨rfl, fun hP => hP⟩
    · split at h
      · injection h with h
        subst h
        exact ⟨rfl, fun hP => hP⟩
      · obtain ⟨asel, hasel, h⟩ := except_bind_ok_elim h
        split at h
        · obtain ⟨ps2, hps2, h⟩ := except_bind_ok_elim h
          obtain ⟨ps3, hps3, h⟩ := except_bind_ok_elim h
          injection h with h
          subst h
          exact ⟨rfl, fun hP => hP⟩
        · injection h with h
          subst h
          exact ⟨rfl, fun hP => hP⟩
  · injection h with h
    subst h
    exact ⟨rfl, fun hP => hP⟩

theorem heartsSetupRound_inv (s : HState) (roundIndex : Nat) (freshDeck : List Card)
    (s' : HState) (h : heartsSetupRound s roundIndex freshDeck = .ok s') :
    s'.playerIds = s.playerIds ∧ (slotsInvH s → slotsInvH s') := by
  simp only [heartsSetupRound, except_pure_eq_ok] at h
  obtain ⟨cards1, hc, h⟩ := except_bind_ok_elim h
  obtain ⟨trip, ht, h⟩ := except_bind_ok_elim h
  injection h with h
  subst h
  exact ⟨rfl, fun _ => by simp [slotsInvH, List.length_replicate]⟩

theorem heartsStartNextRound_inv (s : HState) (freshDeck : List Card) (s' : HState)
    (h : heartsStartNextRound s freshDeck = .ok s') :
    s'.playerIds = s.playerIds ∧ (slotsInvH s → slotsInvH s') := by
  simp only [heartsStartNextRound, except_pure_eq_ok] at h
  split at h
  · injection h with h
    subst h
    exact ⟨rfl, fun hP => hP⟩
  · obtain ⟨reached, hre, h⟩ := except_bind_ok_elim h
    split at h
    · injection h with h
      subst h
      exact ⟨rfl, fun hP => hP⟩
    · obtain ⟨hpl, hinv⟩ := heartsSetupRound_inv
        { s with roundNumber := s.roundNumber + 1 } (s.roundNumber + 1 - 1)
        freshDeck s' h
      exact ⟨hpl, fun hP => hinv hP⟩

theorem heartsPerformAction_inv (s : HState) (action playerId : String)
    (payload : ActionPayload) (uuid : String) (ts : Int) (freshDeck : List Card)
    (s' : HState) (h : heartsPerformAction s action playerId payload uuid ts freshDeck = .ok s') :
    s'.playerIds = s.playerIds ∧ (slotsInvH s → slotsInvH s') := by
  simp only [heartsPerformAction, except_pure_eq_ok] at h
  obtain ⟨valid, hvalid, h⟩ := except_bind_ok_elim h
  split at h
  · injection h with h
    subst h
    exact ⟨rfl, fun hP => hP⟩
  · split at h
    · rename_i ha
      rw [ha] at hvalid
      simp [heartsValidateAction] at hvalid
    · split at h
      · exact heartsPassCards_inv _ _ _ h
      · split at h
        · exact heartsStartNextRound_inv _ _ _ h
        · injection h with h
          subst h
          exact ⟨rfl, fun hP => hP⟩

theorem hStep_inv (s : HState) (d : HDispatch) (uuid : String) (ts : Int) :
    (hStep s d uuid ts).playerIds = s.playerIds ∧
      (slotsInvH s → slotsInvH (hStep s d uuid ts)) := by
  unfold hStep
  cases h : heartsPerformAction s d.action d.playerId d.payload uuid ts d.freshDeck with
  | ok s1 => exact heartsPerformAction_inv _ _ _ _ _ _ _ _ h
  | error e => exact ⟨rfl, fun hP => hP⟩

theorem hRun_inv (ds : List HDispatch) :
    ∀ (s : HState) (os : List (String × Int)),
      (hRun s ds os).playerIds = s.playerIds ∧
        (slotsInvH s → slotsInvH (hRun s ds os)) := by
  induction ds with
  | nil => exact fun s os => ⟨rfl, fun hP => hP⟩
  | cons d rest ih =>
    intro s os
    obtain ⟨hpl1, hinv1⟩ := hStep_inv s d (os.headD ("", 0)).1 (os.headD ("", 0)).2
    obtain ⟨hpl2, hinv2⟩ := ih (hStep s d (os.headD ("", 0)).1 (os.headD ("", 0)).2) os.tail
    exact ⟨hpl2.trans hpl1, fun hP => hinv2 (hinv1 hP)⟩

theorem exceptErased_refl (s : NNState) : exceptErased (.ok s) (.ok s) := rfl

theorem exceptErased_bind (x : Except JsFault α)
    (f g : α → Except JsFault NNState)
    (h : ∀ w, exceptErased (f w) (g w)) :
    exceptErased (x >>= f) (x >>= g) := by
  cases x with
  | error e =>
    rw [except_error_bind, except_error_bind]
    exact rfl
  | ok w =>
    rw [except_ok_bind, except_ok_bind]
    exact h w

theorem nnValidateAction_erased (s₁ s₂ : NNState) (h : eraseNN s₁ = eraseNN s₂)
    (a pid : String) (p : ActionPayload) :
    nnValidateAction s₁ a pid p = nnValidateAction s₂ a pid p := by
  obtain ⟨e, pids, dk, tu, ph, cpi, ctc, cts, ctw, ctl, tp, il, er, la, gs, rn, gm, lt1, tr, gset⟩ := s₁
  obtain ⟨e2, pids2, dk2, tu2, ph2, cpi2, ctc2, cts2, ctw2, ctl2, tp2, il2, er2, la2, gs2, rn2, gm2, lt2, tr2, gset2⟩ := s₂
  simp only [eraseNN, ErasedNNState.mk.injEq] at h
  obtain ⟨rfl, rfl, rfl, rfl, rfl, rfl, rfl, rfl, rfl, rfl, rfl, rfl, rfl, rfl, rfl, rfl, rfl, hl, rfl, rfl⟩ := h
  rfl

theorem nnDeclare_erased (s₁ s₂ : NNState) (h : eraseNN s₁ = eraseNN s₂)
    (p : ActionPayload) : exceptErased (nnDeclare s₁ p) (nnDeclare s₂ p) := by
  obtain ⟨e, pids, dk, tu, ph, cpi, ctc, cts, ctw, ctl, tp, il, er, la, gs, rn, gm, lt1, tr, gset⟩ := s₁
  obtain ⟨e2, pids2, dk2, tu2, ph2, cpi2, ctc2, cts2, ctw2, ctl2, tp2, il2, er2, la2, gs2, rn2, gm2, lt2, tr2, gset2⟩ := s₂
  simp only [eraseNN, ErasedNNState.mk.injEq] at h
  obtain ⟨rfl, rfl, rfl, rfl, rfl, rfl, rfl, rfl, rfl, rfl, rfl, rfl, rfl, rfl, rfl, rfl, rfl, hl, rfl, rfl⟩ := h
  cases hq : p.playerId.bind (alookup e.players) with
  | none => simp [nnDeclare, hq, exceptErased, eraseNN, hl]
  | some q => simp [nnDeclare, hq, exceptErased, eraseNN, hl]

theorem nnRevealBid_erased (s₁ s₂ : NNState) (h : eraseNN s₁ = eraseNN s₂)
    (p : ActionPayload) : exceptErased (nnRevealBid s₁ p) (nnRevealBid s₂ p) := by
  obtain ⟨e, pids, dk, tu, ph, cpi, ctc, cts, ctw, ctl, tp, il, er, la, gs, rn, gm, lt1, tr, gset⟩ := s₁
  obtain ⟨e2, pids2, dk2, tu2, ph2, cpi2, ctc2, cts2, ctw2, ctl2, tp2, il2, er2, la2, gs2, rn2, gm2, lt2, tr2, gset2⟩ := s₂
  simp only [eraseNN, ErasedNNState.mk.injEq] at h
  obtain ⟨rfl, rfl, rfl, rfl, rfl, rfl, rfl, rfl, rfl, rfl, rfl, rfl, rfl, rfl, rfl, rfl, rfl, hl, rfl, rfl⟩ := h
  cases hq : p.playerId.bind (alookup e.players) with
  | none => simp [nnRevealBid, hq, exceptErased, eraseNN, hl]
  | some q => simp [nnRevealBid, hq, exceptErased, eraseNN, hl]

theorem nnPlaceBid_erased (s₁ s₂ : NNState) (h : eraseNN s₁ = eraseNN s₂)
    (p : ActionPayload) : exceptErased (nnPlaceBid s₁ p) (nnPlaceBid s₂ p) := by
  obtain ⟨e, pids, dk, tu, ph, cpi, ctc, cts, ctw, ctl, tp, il, er, la, gs, rn, gm, lt1, tr, gset⟩ := s₁
  obtain ⟨e2, pids2, dk2, tu2, ph2, cpi2, ctc2, cts2, ctw2, ctl2, tp2, il2, er2, la2, gs2, rn2, gm2, lt2, tr2, gset2⟩ := s₂
  simp only [eraseNN, ErasedNNState.mk.injEq] at h
  obtain ⟨rfl, rfl, rfl, rfl, rfl, rfl, rfl, rfl, rfl, rfl, rfl, rfl, rfl, rfl, rfl, rfl, rfl, hl, rfl, rfl⟩ := h
  obtain ⟨ppid, pcid, pcids⟩ := p
  cases ppid with
  | none => simp [nnPlaceBid, except_pure_eq_ok, exceptErased, eraseNN, hl]
  | some pid =>
    cases hq : alookup e.players pid with
    | none => simp [nnPlaceBid, hq, except_pure_eq_ok, exceptErased, eraseNN, hl]
    | some q =>
      cases pcids with
      | none => simp [nnPlaceBid, hq, except_pure_eq_ok, exceptErased]
      | some cids =>
        simp only [nnPlaceBid, hq]
        refine exceptErased_bind _ _ _ fun w => ?_
        simp [except_pure_eq_ok, exceptErased, eraseNN, hl]

theorem nnSetupRound_erased (s₁ s₂ : NNState) (h : eraseNN s₁ = eraseNN s₂)
    (ri : Nat) (fd : List Card) :
    exceptErased (nnSetupRound s₁ ri fd) (nnSetupRound s₂ ri fd) := by
  obtain ⟨e, pids, dk, tu, ph, cpi, ctc, cts, ctw, ctl, tp, il, er, la, gs, rn, gm, lt1, tr, gset⟩ := s₁
  obtain ⟨e2, pids2, dk2, tu2, ph2, cpi2, ctc2, cts2, ctw2, ctl2, tp2, il2, er2, la2, gs2, rn2, gm2, lt2, tr2, gset2⟩ := s₂
  simp only [eraseNN, ErasedNNState.mk.injEq] at h
  obtain ⟨rfl, rfl, rfl, rfl, rfl, rfl, rfl, rfl, rfl, rfl, rfl, rfl, rfl, rfl, rfl, rfl, rfl, hl, rfl, rfl⟩ := h
  simp only [nnSetupRound]
  refine exceptErased_bind _ _ _ fun w => ?_
  simp [except_pure_eq_ok, exceptErased, eraseNN, hl]

theorem except_throw_eq_error (e : ε) : (throw e : Except ε α) = .error e := rfl

theorem nnPlayCard_erased (s₁ s₂ : NNState) (h : eraseNN s₁ = eraseNN s₂)
    (p : ActionPayload) (u₁ u₂ : String) (t₁ t₂ : Int) :
    exceptErased (nnPlayCard s₁ p u₁ t₁) (nnPlayCard s₂ p u₂ t₂) := by
  obtain ⟨e, pids, dk, tu, ph, cpi, ctc, cts, ctw, ctl, tp, il, er, la, gs, rn, gm, lt1, tr, gset⟩ := s₁
  obtain ⟨e2, pids2, dk2, tu2, ph2, cpi2, ctc2, cts2, ctw2, ctl2, tp2, il2, er2, la2, gs2, rn2, gm2, lt2, tr2, gset2⟩ := s₂
  simp only [eraseNN, ErasedNNState.mk.injEq] at h
  obtain ⟨rfl, rfl, rfl, rfl, rfl, rfl, rfl, rfl, rfl, rfl, rfl, rfl, rfl, rfl, rfl, rfl, rfl, hl, rfl, rfl⟩ := h
  obtain ⟨ppid, pcid, pcids⟩ := p
  cases ppid with
  | none => simp [nnPlayCard, except_pure_eq_ok, exceptErased, eraseNN, hl]
  | some pid =>
    cases pcid with
    | none => simp [nnPlayCard, except_pure_eq_ok, exceptErased, eraseNN, hl]
    | some cid =>
      cases hq : alookup e.players pid with
      | none => simp [nnPlayCard, hq, except_pure_eq_ok, exceptErased, eraseNN, hl]
      | some q =>
        cases hc : alookup e.cards cid with
        | none => simp [nnPlayCard, hq, hc, except_pure_eq_ok, exceptErased, eraseNN, hl]
        | some card =>
          simp only [nnPlayCard, hq, hc]
          by_cases hall :
            (jsArraySet ctc (jsIndexOf pids pid) (some cid)).all Option.isSome = true
          · rw [if_pos hall, if_pos hall]
            refine exceptErased_bind _ _ _ fun w => ?_
            cases hg : pids.get? w with
            | none => simp [hg, except_throw_eq_error, exceptErased]
            | some wpid =>
              simp only [hg]
              cases hq2 : alookup
                  (amodify e.players pid fun r =>
                    { r with handIds := r.handIds.filter fun i => ¬ i = cid }) wpid with
              | none => simp [hq2, except_throw_eq_error, exceptErased]
              | some q2 =>
                simp only [hq2]
                by_cases hro : tp + 1 ≥ gset.maxTricks
                · rw [if_pos hro, if_pos hro]
                  rw [except_pure_eq_ok, except_ok_bind, except_ok_bind,
                    if_pos rfl, if_pos rfl]
                  refine exceptErased_bind _ _ _ fun ps3 => ?_
                  simp [except_pure_eq_ok, exceptErased, eraseNN, eraseTrick, hl]
                · rw [if_neg hro, if_neg hro]
                  refine exceptErased_bind _ _ _ fun ro => ?_
                  cases ro with
                  | true =>
                    rw [if_pos rfl, if_pos rfl]
                    refine exceptErased_bind _ _ _ fun ps3 => ?_
                    simp [except_pure_eq_ok, exceptErased, eraseNN, eraseTrick, hl]
                  | false =>
                    simp only [Bool.false_eq_true, if_false]
                    simp [except_pure_eq_ok, exceptErased, eraseNN, eraseTrick, hl]
          · rw [if_neg hall, if_neg hall]
            simp [except_pure_eq_ok, exceptErased, eraseNN, hl]

theorem nnStartNextRound_erased (s₁ s₂ : NNState) (h : eraseNN s₁ = eraseNN s₂)
    (fd : List Card) :
    exceptErased (nnStartNextRound s₁ fd) (nnStartNextRound s₂ fd) := by
  obtain ⟨e, pids, dk, tu, ph, cpi, ctc, cts, ctw, ctl, tp, il, er, la, gs, rn, gm, lt1, tr, gset⟩ := s₁
  obtain ⟨e2, pids2, dk2, tu2, ph2, cpi2, ctc2, cts2, ctw2, ctl2, tp2, il2, er2, la2, gs2, rn2, gm2, lt2, tr2, gset2⟩ := s₂
  simp only [eraseNN, ErasedNNState.mk.injEq] at h
  obtain ⟨rfl, rfl, rfl, rfl, rfl, rfl, rfl, rfl, rfl, rfl, rfl, rfl, rfl, rfl, rfl, rfl, rfl, hl, rfl, rfl⟩ := h
  simp only [nnStartNextRound]
  by_cases hcap : rn ≥ gset.maxRounds
  · rw [if_pos hcap, if_pos hcap]
    simp [except_pure_eq_ok, except_ok_bind, exceptErased, eraseNN, hl]
  · rw [if_neg hcap, if_neg hcap]
    refine exceptErased_bind _ _ _ fun capped => ?_
    cases capped with
    | true =>
      simp [except_pure_eq_ok, exceptErased, eraseNN, hl]
    | false =>
      simp only [Bool.false_eq_true, if_false]
      refine nnSetupRound_erased _ _ ?_ _ _
      simp [eraseNN, hl]

theorem nnPerformAction_erased (s₁ s₂ : NNState) (h : eraseNN s₁ = eraseNN s₂)
    (action playerId : String) (p : ActionPayload) (u₁ u₂ : String) (t₁ t₂ : Int)
    (fd : List Card) :
    exceptErased (nnPerformAction s₁ action playerId p u₁ t₁ fd)
      (nnPerformAction s₂ action playerId p u₂ t₂ fd) := by
  simp only [nnPerformAction]
  rw [nnValidateAction_erased s₁ s₂ h action playerId p]
  refine exceptErased_bind _ _ _ fun v => ?_
  by_cases hv : ¬ v = true
  · rw [if_pos hv, if_pos hv]
    exact h
  · rw [if_neg hv, if_neg hv]
    by_cases h1 : action = "PLAY_CARD"
    · rw [if_pos h1, if_pos h1]
      exact nnPlayCard_erased s₁ s₂ h p u₁ u₂ t₁ t₂
    · rw [if_neg h1, if_neg h1]
      by_cases h2 : action = "PLACE_BID"
      · rw [if_pos h2, if_pos h2]
        exact nnPlaceBid_erased s₁ s₂ h p
      · rw [if_neg h2, if_neg h2]
        by_cases h3 : action = "DECLARE"
        · rw [if_pos h3, if_pos h3]
          exact nnDeclare_erased s₁ s₂ h p
        · rw [if_neg h3, if_neg h3]
          by_cases h4 : action = "REVEAL_BID"
          · rw [if_pos h4, if_pos h4]
            exact nnRevealBid_erased s₁ s₂ h p
          · rw [if_neg h4, if_neg h4]
            by_cases h5 : action = "START_NEXT_ROUND"
            · rw [if_pos h5, if_pos h5]
              exact nnStartNextRound_erased s₁ s₂ h fd
            · rw [if_neg h5, if_neg h5]
              exact h

theorem nnStep_erased (s₁ s₂ : NNState) (h : eraseNN s₁ = eraseNN s₂)
    (d : NNDispatch) (u₁ u₂ : String) (t₁ t₂ : Int) :
    eraseNN (nnStep s₁ d u₁ t₁) = eraseNN (nnStep s₂ d u₂ t₂) := by
  have hp := nnPerformAction_erased s₁ s₂ h d.action d.playerId d.payload u₁ u₂ t₁ t₂
    d.freshDeck
  unfold nnStep
  cases h1 : nnPerformAction s₁ d.action d.playerId d.payload u₁ t₁ d.freshDeck with
  | ok a =>
    cases h2 : nnPerformAction s₂ d.action d.playerId d.payload u₂ t₂ d.freshDeck with
    | ok b =>
      rw [h1, h2] at hp
      exact hp
    | error f =>
      rw [h1, h2] at hp
      exact (hp : False).elim
  | error e1 =>
    cases h2 : nnPerformAction s₂ d.action d.playerId d.payload u₂ t₂ d.freshDeck with
    | ok b =>
      rw [h1, h2] at hp
      exact (hp : False).elim
    | error f => exact h

theorem nnRun_erased (ds : List NNDispatch) :
    ∀ (s₁ s₂ : NNState), eraseNN s₁ = eraseNN s₂ →
      ∀ (os₁ os₂ : List (String × Int)),
        eraseNN (nnRun s₁ ds os₁) = eraseNN (nnRun s₂ ds os₂) := by
  induction ds with
  | nil => exact fun s₁ s₂ h os₁ os₂ => h
  | cons d rest ih =>
    intro s₁ s₂ h os₁ os₂
    exact ih _ _
      (nnStep_erased s₁ s₂ h d (os₁.headD ("", 0)).1 (os₂.headD ("", 0)).1
        (os₁.headD ("", 0)).2 (os₂.headD ("", 0)).2)
      os₁.tail os₂.tail

theorem heartsFindShooter_spec (ps : List (String × HPlayer)) :
    ∀ pids : List String, (∀ pid ∈ pids, (alookup ps pid).isSome) →
      ∃ sh, heartsFindShooter ps pids = .ok sh ∧
        (sh = none → ∀ pid ∈ pids, isShooterB ps pid = false) ∧
        (∀ sid, sh = some sid → sid ∈ pids ∧ isShooterB ps sid = true) := by
  intro pids
  induction pids with
  | nil =>
    intro _
    exact ⟨none, rfl, fun _ pid hpid => absurd hpid (List.not_mem_nil pid),
      fun sid hs => by simp at hs⟩
  | cons q rest ih =>
    intro hall
    have hq := hall q (List.mem_cons_self q rest)
    obtain ⟨p, hp⟩ := Option.isSome_iff_exists.mp hq
    by_cases hsh : p.heartsWon = 13 ∧ p.hasQueenOfSpades
    · refine ⟨some q, ?_, fun h => by simp at h, fun sid hs => ?_⟩
      · simp [heartsFindShooter, hp, hsh]
      · have hsq : sid = q := by
          injection hs with h
          exact h.symm
        subst hsq
        exact ⟨List.mem_cons_self sid rest, by simp [isShooterB, hp, hsh]⟩
    · obtain ⟨sh, hrec, h1, h2⟩ := ih (fun pid hpid => hall pid (List.mem_cons_of_mem q hpid))
      refine ⟨sh, ?_, ?_, ?_⟩
      · simp [heartsFindShooter, hp, hsh, hrec]
      · intro hnone pid hpid
        rcases List.mem_cons.mp hpid with h | h
        · subst h
          simp [isShooterB, hp, hsh]
        · exact h1 hnone pid h
      · intro sid hs
        obtain ⟨hmem, hsho⟩ := h2 sid hs
        exact ⟨List.mem_cons_of_mem q hmem, hsho⟩

theorem heartsApplyRoundScores_spec (rp : List (String × JsNum)) :
    ∀ (pids : List String) (ps : List (String × HPlayer)),
      pids.Nodup →
      (∀ pid ∈ pids, (alookup ps pid).isSome) →
      ∃ ps', heartsApplyRoundScores rp ps pids = .ok ps' ∧
        (∀ pid ∈ pids, alookup ps' pid = (alookup ps pid).map (fun p =>
          { p with
            roundScore := (alookup rp pid).getD none
            score := jsAdd p.score ((alookup rp pid).getD none) })) ∧
        (∀ pid, pid ∉ pids → alookup ps' pid = alookup ps pid) := by
  intro pids
  induction pids with
  | nil =>
    intro ps _ _
    exact ⟨ps, rfl, by simp, fun _ _ => rfl⟩
  | cons q rest ih =>
    intro ps hnd hall
    obtain ⟨p, hp⟩ := Option.isSome_iff_exists.mp (hall q (List.mem_cons_self q rest))
    have hqrest : q ∉ rest := (List.nodup_cons.mp hnd).1
    have hstep : heartsApplyRoundScores rp ps (q :: rest) =
        heartsApplyRoundScores rp
          (amodify ps q (fun x =>
            { x with
              roundScore := (alookup rp q).getD none
              score := jsAdd x.score ((alookup rp q).getD none) })) rest := by
      simp [heartsApplyRoundScores, hp]
    obtain ⟨ps', hrec, hin, hout⟩ := ih
      (amodify ps q (fun x =>
        { x with
          roundScore := (alookup rp q).getD none
          score := jsAdd x.score ((alookup rp q).getD none) }))
      (List.nodup_cons.mp hnd).2
      (fun pid hpid => by
        rw [isSome_alookup_amodify]
        exact hall pid (List.mem_cons_of_mem q hpid))
    refine ⟨ps', by rw [hstep]; exact hrec, ?_, ?_⟩
    · intro pid hpid
      rcases List.mem_cons.mp hpid with h | h
      · subst h
        rw [hout pid hqrest, alookup_amodify_self]
      · have hne : ¬ pid = q := fun he => hqrest (he ▸ h)
        rw [hin pid h, alookup_amodify_ne _ _ _ _ hne]
    · intro pid hpid
      have h1 : pid ∉ rest := fun hm => hpid (List.mem_cons_of_mem q hm)
      have h2 : ¬ pid = q := fun he => hpid (by rw [he]; exact List.mem_cons_self q rest)
      rw [hout pid h1, alookup_amodify_ne _ _ _ _ h2]

/-! ## Claim theorems -/

theorem get?_replicate (n m : Nat) (a : α) :
    (List.replicate n a).get? m = if m < n then some a else none := by
  rw [List.get?_eq_getElem?]
  simp [List.getElem?_replicate]

theorem dealLoop_full_lengths (deck : List Card) (n k : Nat)
    (hle : n * k ≤ deck.length) :
    (dealLoop ⟨deck, List.replicate n []⟩ n k).hands.map List.length =
      List.replicate n k := by
  obtain ⟨_, _, hj⟩ := dealLoop_lengths ⟨deck, List.replicate n []⟩ n k
    (by simp) hle
  apply List.ext_get?
  intro j
  rw [hj j]
  show (((List.replicate n ([] : List Card)).map List.length).get? j).map (· + k) =
    (List.replicate n k).get? j
  rw [List.map_replicate, get?_replicate, get?_replicate]
  by_cases hjn : j < n <;> simp [hjn]

/-- C1: for every complete trick (seat 0 card leading) and optional trump
suit, `determineTrickWinner` returns the seat obtained by folding the
spec's displacement rule (trump beats non-trump; same-suit cards compare by
the rank order 2 < ... < A; other cards never win) from slot 0; in
particular trick [7♣, K♣, 2♥, 3♣] with trump ♥ gives seat 2, and
[7♣, K♣, 9♣, 3♣] with no trump gives seat 1. -/
theorem c1_determineTrickWinner_follows_spec :
    (∀ (trick : List Card) (lead trump : Option Suit),
      determineTrickWinner (trick.map some) lead trump =
        .ok (specTrickWinner trick trump)) ∧
    determineTrickWinner
      [some (mkCard "7C" .clubs .seven), some (mkCard "KC" .clubs .king),
       some (mkCard "2H" .hearts .two), some (mkCard "3C" .clubs .three)]
      (some .clubs) (some .hearts) = .ok 2 ∧
    determineTrickWinner
      [some (mkCard "7C" .clubs .seven), some (mkCard "KC" .clubs .king),
       some (mkCard "9C" .clubs .nine), some (mkCard "3C" .clubs .three)]
      (some .clubs) none = .ok 1 := by
  refine ⟨?_, rfl, rfl⟩
  intro trick lead trump
  cases trick with
  | nil => rfl
  | cons c cs =>
    show (do
      let r ← ((cs.map some).enumFrom 1).foldlM (dtwStep trump)
        ((some c : Option Card), 0)
      return r.2) = Except.ok (specTrickWinner (c :: cs) trump)
    rw [dtw_fold_eq trump cs c 0 1]
    rfl

/-- C3 (counterexample): played as stated the claim asserts that 3 tricks
with a non-empty bid score 40; the code's `calculatePlayerScore` returns
3 × 10 + 20 = 50 on that exact input. -/
theorem c3_counterexample_three_tricks_bid_scores_50 :
    calculatePlayerScore (mkPlayer "p1" [] ["b1"] 3 0) 3
      [some (mkCard "AS" .spades .ace)] = 50 ∧ (50 : Int) ≠ 40 := by
  exact ⟨rfl, by decide⟩

/-- C3 (amended): the Ninety-Nine score function returns tricksWon × 10
plus 20 for a non-empty bid-card list and plus 0 for an empty one; in
particular 3 tricks with a non-empty bid yield 50 (not 40), and 0 tricks
with an empty bid yield 0. -/
theorem c3_calculatePlayerScore_formula :
    (∀ (p : Player) (tricksWon : Nat) (bidCards : List (Option Card)),
      calculatePlayerScore p tricksWon bidCards =
        (tricksWon : Int) * 10 + (if bidCards = [] then 0 else 20)) ∧
    calculatePlayerScore (mkPlayer "p1" [] ["b1"] 3 0) 3
      [some (mkCard "AS" .spades .ace)] = 50 ∧
    calculatePlayerScore (mkPlayer "p2" [] [] 0 0) 0 [] = 0 := by
  refine ⟨?_, rfl, rfl⟩
  intro p tricksWon bidCards
  cases bidCards <;> simp [calculatePlayerScore]

/-- C5 (counterexample): on a 2-card deck with playerCount = 2 and
cardsPerPlayer = 2 (so 2 × 2 + 1 exceeds the deck size), `dealCards`
returns a plain result — hands of one card each and a null turnup — rather
than any error: it silently deals short hands. -/
theorem c5_counterexample_silent_short_deal :
    ((dealCards [mkCard "c1" .clubs .two, mkCard "c2" .hearts .three] 2 2).hands.map
      List.length = [1, 1]) ∧
    (dealCards [mkCard "c1" .clubs .two, mkCard "c2" .hearts .three] 2 2).turnupCard
      = none ∧
    ([mkCard "c1" .clubs .two, mkCard "c2" .hearts .three].length < 2 * 2 + 1) :=
  ⟨rfl, rfl, by decide⟩

/-- C5 (amended): for every deck, playerCount, and cardsPerPlayer such that
playerCount × cardsPerPlayer plus the turnup card exceeds the deck size,
`dealCards` does not signal any error (its return type has no error
channel and it is a total function): it silently deals until the deck is
exhausted — the remaining deck comes back empty, the turnup card is null,
and the hands together hold exactly the original deck's cards. -/
theorem c5_dealCards_short_deck_no_error :
    ∀ (deck : List Card) (n k : Nat), deck.length < n * k + 1 →
      (dealCards deck n k).turnupCard = none ∧
      (dealCards deck n k).remainingDeck = [] ∧
      handsSum (dealCards deck n k).hands = deck.length := by
  intro deck n k hlt
  have hdl := deck_length_dealLoop ⟨deck, List.replicate n []⟩ n k
  have hzero : (dealLoop ⟨deck, List.replicate n []⟩ n k).deck.length = 0 := by
    rw [hdl]
    show deck.length - n * k = 0
    omega
  have hnil : (dealLoop ⟨deck, List.replicate n []⟩ n k).deck = [] :=
    List.length_eq_zero.mp hzero
  have hsum := handsSum_dealLoop ⟨deck, List.replicate n []⟩ n k (by simp)
  rw [hnil] at hsum
  simp only [List.length_nil, Nat.zero_add] at hsum
  refine ⟨?_, ?_, ?_⟩
  · show ((jsPop (dealLoop ⟨deck, List.replicate n []⟩ n k).deck).1.map _) = none
    rw [hnil]
    rfl
  · show (jsPop (dealLoop ⟨deck, List.replicate n []⟩ n k).deck).2 = []
    rw [hnil]
    rfl
  · show handsSum (dealLoop ⟨deck, List.replicate n []⟩ n k).hands = deck.length
    rw [hsum]
    show deck.length + handsSum (List.replicate n []) = deck.length
    simp [handsSum]

/-- C5 (amended, witness): the amended statement instantiated on the
concrete 2-card deck with playerCount = 2, cardsPerPlayer = 2. -/
theorem c5_dealCards_short_deck_no_error_witness :
    (dealCards [mkCard "d1" .spades .ace, mkCard "d2" .hearts .king] 2 2).turnupCard
        = none ∧
    (dealCards [mkCard "d1" .spades .ace, mkCard "d2" .hearts .king] 2 2).remainingDeck
        = [] ∧
    handsSum (dealCards [mkCard "d1" .spades .ace, mkCard "d2" .hearts .king] 2 2).hands
        = 2 :=
  c5_dealCards_short_deck_no_error
    [mkCard "d1" .spades .ace, mkCard "d2" .hearts .king] 2 2 (by decide)

/-- C6: whenever the deck holds at least playerCount × cardsPerPlayer + 1
cards, `dealCards` returns exactly playerCount hands of exactly
cardsPerPlayer cards each, plus one turnup card, and no card is created or
lost: remaining + Σ hands + 1 equals the original deck size. -/
theorem c6_dealCards_exact_and_conserving :
    ∀ (deck : List Card) (n k : Nat), n * k + 1 ≤ deck.length →
      (dealCards deck n k).hands.length = n ∧
      (∀ h ∈ (dealCards deck n k).hands, h.length = k) ∧
      (dealCards deck n k).turnupCard.isSome ∧
      (dealCards deck n k).remainingDeck.length +
        handsSum (dealCards deck n k).hands + 1 = deck.length := by
  intro deck n k hle
  obtain ⟨hd, hn, _⟩ := dealLoop_lengths ⟨deck, List.replicate n []⟩ n k
    (by simp) (by show n * k ≤ deck.length; omega)
  have hmap := dealLoop_full_lengths deck n k (by omega)
  have hdne : (dealLoop ⟨deck, List.replicate n []⟩ n k).deck ≠ [] := by
    intro hnil
    rw [hnil] at hd
    simp only [List.length_nil] at hd
    have hdd : ({ deck := deck, hands := List.replicate n [] } : DealState).deck.length
        = deck.length := rfl
    omega
  refine ⟨hn, ?_, ?_, ?_⟩
  · intro h hmem
    have : h.length ∈ List.replicate n k := by
      rw [← hmap]
      exact List.mem_map_of_mem List.length hmem
    exact List.eq_of_mem_replicate this
  · show ((jsPop (dealLoop ⟨deck, List.replicate n []⟩ n k).deck).1.map _).isSome
    rw [Option.isSome_map']
    show ((dealLoop ⟨deck, List.replicate n []⟩ n k).deck.getLast?).isSome
    rw [List.getLast?_isSome]
    exact hdne
  · show (jsPop (dealLoop ⟨deck, List.replicate n []⟩ n k).deck).2.length +
      handsSum (dealLoop ⟨deck, List.replicate n []⟩ n k).hands + 1 = deck.length
    rw [jsPop_deck, List.length_dropLast, hd]
    have hsum : handsSum (dealLoop ⟨deck, List.replicate n []⟩ n k).hands = n * k := by
      unfold handsSum
      rw [hmap]
      simp [List.sum_replicate, smul_eq_mul]
    rw [hsum]
    show deck.length - n * k - 1 + n * k + 1 = deck.length
    omega

/-- C4 (counterexample): a rejected dispatch that records no error. From
the Ninety-Nine variant's initial state, dispatching `PLAY_CARD` for a
player id that is not seated is rejected by `validateAction`, and
`performAction` returns the state bit-for-bit unchanged with `error`
still `null` — no typed error is recorded. -/
theorem c4_counterexample_rejection_records_no_error :
    nnPerformAction (nnCreateInitialState ["p1", "p2", "p3"] none) "PLAY_CARD" "zz"
        { playerId := some "zz", cardId := some "c", cardIds := none } "u" 0 []
      = .ok (nnCreateInitialState ["p1", "p2", "p3"] none) ∧
    (nnCreateInitialState ["p1", "p2", "p3"] none).error = none :=
  ⟨rfl, rfl⟩

/-- C4 (amended): the slice reducer `playCard` handles each rejection —
unknown player, card not in the acting player's hand, action not permitted
in the current phase — by recording a typed error (`VALIDATION`,
`VALIDATION`, `GAME_STATE` respectively) and leaving every other field of
the state exactly as it was; the variant-level `performAction`, in
contrast, rejects by returning the state entirely unchanged and records no
error. -/
theorem c4_rejections_atomic :
    (∀ (s : GameState) (playerId : String) (card : Card) (uuid : String) (ts : Int),
      alookup s.entities.players playerId = none →
      playCard s playerId card uuid ts =
        .ok { s with error := some ⟨.VALIDATION, "Invalid player ID"⟩ }) ∧
    (∀ (s : GameState) (playerId : String) (card : Card) (uuid : String) (ts : Int)
      (p : Player),
      alookup s.entities.players playerId = some p →
      ¬ p.handIds.contains card.id →
      playCard s playerId card uuid ts =
        .ok { s with error := some ⟨.VALIDATION, "Card not in player hand"⟩ }) ∧
    (∀ (s : GameState) (playerId : String) (card : Card) (uuid : String) (ts : Int)
      (p : Player),
      alookup s.entities.players playerId = some p →
      p.handIds.contains card.id →
      ¬ s.gamePhase = .playing →
      playCard s playerId card uuid ts =
        .ok { s with error := some ⟨.GAME_STATE, "Cannot play cards in current game phase"⟩ }) ∧
    (∀ (s : NNState) (action playerId : String) (payload : ActionPayload)
      (uuid : String) (ts : Int) (freshDeck : List Card),
      nnValidateAction s action playerId payload = .ok false →
      nnPerformAction s action playerId payload uuid ts freshDeck = .ok s) := by
  refine ⟨?_, ?_, ?_, ?_⟩
  · intro s playerId card uuid ts h
    simp [playCard, h, except_pure_eq_ok]
  · intro s playerId card uuid ts p hp hc
    have hc' : ¬ card.id ∈ p.handIds := by simpa using hc
    simp [playCard, hp, hc', except_pure_eq_ok]
  · intro s playerId card uuid ts p hp hc hphase
    have hc' : card.id ∈ p.handIds := by simpa using hc
    simp [playCard, hp, hc', hphase, except_pure_eq_ok]
  · intro s action playerId payload uuid ts freshDeck hv
    simp [nnPerformAction, hv, except_pure_eq_ok, except_ok_bind]

/-- C4 (witness): the three slice rejection cases and the variant
rejection case instantiated on concrete states. -/
theorem c4_rejections_atomic_witness :
    (playCard initialState "p1" (mkCard "x" .clubs .two) "u" 0 =
      .ok { initialState with error := some ⟨.VALIDATION, "Invalid player ID"⟩ }) ∧
    (playCard
        { initialState with
          entities := { players := [("p1", mkPlayer "p1" [] [] 0 0)], cards := [] } }
        "p1" (mkCard "x" .clubs .two) "u" 0 =
      .ok { { initialState with
          entities := { players := [("p1", mkPlayer "p1" [] [] 0 0)], cards := [] } } with
          error := some ⟨.VALIDATION, "Card not in player hand"⟩ }) ∧
    (playCard
        { initialState with
          entities := { players := [("p1", mkPlayer "p1" ["x"] [] 0 0)], cards := [] } }
        "p1" (mkCard "x" .clubs .two) "u" 0 =
      .ok { { initialState with
          entities := { players := [("p1", mkPlayer "p1" ["x"] [] 0 0)], cards := [] } } with
          error := some ⟨.GAME_STATE, "Cannot play cards in current game phase"⟩ }) ∧
    (nnPerformAction (nnCreateInitialState ["q1"] none) "PLAY_CARD" "q1"
        { playerId := some "q1", cardId := none, cardIds := none } "u" 0 [] =
      .ok (nnCreateInitialState ["q1"] none)) :=
  ⟨c4_rejections_atomic.1 initialState "p1" (mkCard "x" .clubs .two) "u" 0 rfl,
   c4_rejections_atomic.2.1 _ "p1" (mkCard "x" .clubs .two) "u" 0 _ rfl (by decide),
   c4_rejections_atomic.2.2.1 _ "p1" (mkCard "x" .clubs .two) "u" 0 _ rfl (by decide)
     (by decide),
   c4_rejections_atomic.2.2.2 _ "PLAY_CARD" "q1"
     { playerId := some "q1", cardId := none, cardIds := none } "u" 0 [] rfl⟩

/-- C10: for every state, player and payload, the Hearts variant's
`validateAction` on `'PLAY_CARD'` never returns a boolean — the arrow
function's `this` is not the `rules` object, so `this.isValidPlay` faults —
and consequently `performAction` propagates the fault for every `PLAY_CARD`
dispatch and can never apply the Hearts `PLAY_CARD` reducer through the
dispatch path. -/
theorem c10_hearts_validateAction_playcard_faults :
    (∀ (s : HState) (playerId : String),
      heartsValidateAction s "PLAY_CARD" playerId = .error .typeError) ∧
    (∀ (s : HState) (playerId : String) (payload : ActionPayload) (uuid : String)
      (ts : Int) (freshDeck : List Card),
      heartsPerformAction s "PLAY_CARD" playerId payload uuid ts freshDeck =
        .error .typeError) := by
  refine ⟨fun s playerId => rfl, fun s playerId payload uuid ts freshDeck => ?_⟩
  simp [heartsPerformAction, heartsValidateAction, except_error_bind]

/-- C7 (counterexample): from the concrete mid-game state
`resetDemoState` — player p1 holding a cumulative score of 40 — the
accepted `playCard` dispatch that completes the round's last trick (no
error is recorded) resets p1's score to 0: the cumulative score decreases
from 40 to 0 within one game session. -/
theorem c7_counterexample_score_reset_mid_game :
    ((playCard resetDemoState "p3" (mkCard "c3" .clubs .seven) "u" 7).toOption.map
      (fun s => ((alookup s.entities.players "p1").map Player.score, s.error))) =
      some (some 0, none) ∧
    (alookup resetDemoState.entities.players "p1").map Player.score = some 40 ∧
    (0 : Int) < 40 :=
  ⟨rfl, rfl, by decide⟩

/-- C2: when the last trick of a Hearts round resolves, the round-end block
of the `PLAY_CARD` reducer (`heartsRoundEnd`, with the `shootTheMoon` rule
on as the variant configures it) gives each player a round score equal to
the hearts they took plus 13 if they took the Queen of Spades (the value
tracked in `roundPoints`), except that when some player took all 13 hearts
and the Queen of Spades, that player scores 0 for the round and every
other player scores 26; the round score is simultaneously added to the
player's running total. -/
theorem c2_hearts_round_end_scores :
    ∀ (playerIds : List String) (ps : List (String × HPlayer))
      (rp : List (String × JsNum)),
      playerIds.Nodup →
      (∀ pid ∈ playerIds, (alookup ps pid).isSome ∧
        alookup rp pid = (alookup ps pid).map
          (fun p => some ((p.heartsWon : Int) + (if p.hasQueenOfSpades then 13 else 0)))) →
      ∃ sh ps' rp',
        heartsFindShooter ps playerIds = .ok sh ∧
        heartsRoundEnd true playerIds ps rp = .ok (ps', rp') ∧
        (sh = none → ∀ pid ∈ playerIds, isShooterB ps pid = false) ∧
        (∀ sid, sh = some sid → sid ∈ playerIds ∧ isShooterB ps sid = true) ∧
        (∀ pid ∈ playerIds,
          alookup ps' pid = (alookup ps pid).map (fun p =>
            { p with
              roundScore := specHeartsRoundScore sh pid p
              score := jsAdd p.score (specHeartsRoundScore sh pid p) })) := by
  intro playerIds ps rp hnd hinv
  have hall : ∀ pid ∈ playerIds, (alookup ps pid).isSome :=
    fun pid h => (hinv pid h).1
  obtain ⟨sh, hfs, h1, h2⟩ := heartsFindShooter_spec ps playerIds hall
  cases sh with
  | some sid =>
    obtain ⟨ps', hap, hin, _⟩ :=
      heartsApplyRoundScores_spec (heartsShootOverride sid playerIds rp)
        playerIds ps hnd hall
    refine ⟨some sid, ps', heartsShootOverride sid playerIds rp, hfs, ?_, ?_, h2, ?_⟩
    · simp [heartsRoundEnd, hfs, except_ok_bind, except_pure_eq_ok, hap]
    · intro h
      simp at h
    · intro pid hpid
      rw [hin pid hpid]
      have hv : (alookup (heartsShootOverride sid playerIds rp) pid).getD none =
          (if pid = sid then some 0 else some 26) := by
        rw [show heartsShootOverride sid playerIds rp =
          playerIds.foldl
            (fun m id => aput m id (if id = sid then some 0 else some 26)) rp from rfl]
        rw [foldl_aput_lookup_mem (fun id => if id = sid then some 0 else some 26)
          playerIds rp pid hpid]
        rfl
      cases hpd : alookup ps pid with
      | none => rfl
      | some p =>
        have hspec : specHeartsRoundScore (some sid) pid p =
            (if pid = sid then some 0 else some 26) := by
          unfold specHeartsRoundScore
          by_cases hps : pid = sid <;> simp [hps]
        simp only [Option.map_some']
        rw [hv, hspec]
  | none =>
    obtain ⟨ps', hap, hin, _⟩ :=
      heartsApplyRoundScores_spec rp playerIds ps hnd hall
    refine ⟨none, ps', rp, hfs, ?_, fun _ => h1 rfl, ?_, ?_⟩
    · simp [heartsRoundEnd, hfs, except_ok_bind, except_pure_eq_ok, hap]
    · intro sid hs
      simp at hs
    · intro pid hpid
      rw [hin pid hpid]
      cases hpd : alookup ps pid with
      | none => rfl
      | some p =>
        have hv : (alookup rp pid).getD none = specHeartsRoundScore none pid p := by
          rw [(hinv pid hpid).2, hpd]
          rfl
        simp only [Option.map_some']
        rw [hv]

/-- C2 (witness): the statement instantiated on a concrete three-player
round in which p1 shot the moon (all 13 hearts and the Queen of Spades). -/
theorem c2_hearts_round_end_scores_witness :
    ∃ sh ps' rp',
      heartsFindShooter
        [("p1", mkHPlayer "p1" [] 13 13 true 10),
         ("p2", mkHPlayer "p2" [] 0 0 false 5),
         ("p3", mkHPlayer "p3" [] 0 0 false 0)] ["p1", "p2", "p3"] = .ok sh ∧
      heartsRoundEnd true ["p1", "p2", "p3"]
        [("p1", mkHPlayer "p1" [] 13 13 true 10),
         ("p2", mkHPlayer "p2" [] 0 0 false 5),
         ("p3", mkHPlayer "p3" [] 0 0 false 0)]
        [("p1", some 26), ("p2", some 0), ("p3", some 0)] = .ok (ps', rp') ∧
      (sh = none → ∀ pid ∈ ["p1", "p2", "p3"],
        isShooterB
          [("p1", mkHPlayer "p1" [] 13 13 true 10),
           ("p2", mkHPlayer "p2" [] 0 0 false 5),
           ("p3", mkHPlayer "p3" [] 0 0 false 0)] pid = false) ∧
      (∀ sid, sh = some sid → sid ∈ ["p1", "p2", "p3"] ∧
        isShooterB
          [("p1", mkHPlayer "p1" [] 13 13 true 10),
           ("p2", mkHPlayer "p2" [] 0 0 false 5),
           ("p3", mkHPlayer "p3" [] 0 0 false 0)] sid = true) ∧
      (∀ pid ∈ ["p1", "p2", "p3"],
        alookup ps' pid =
          (alookup
            [("p1", mkHPlayer "p1" [] 13 13 true 10),
             ("p2", mkHPlayer "p2" [] 0 0 false 5),
             ("p3", mkHPlayer "p3" [] 0 0 false 0)] pid).map (fun p =>
            { p with
              roundScore := specHeartsRoundScore sh pid p
              score := jsAdd p.score (specHeartsRoundScore sh pid p) })) :=
  c2_hearts_round_end_scores ["p1", "p2", "p3"]
    [("p1", mkHPlayer "p1" [] 13 13 true 10),
     ("p2", mkHPlayer "p2" [] 0 0 false 5),
     ("p3", mkHPlayer "p3" [] 0 0 false 0)]
    [("p1", some 26), ("p2", some 0), ("p3", some 0)]
    (by decide) (by decide)

/-- C7 (amended): in the Ninety-Nine variant's dispatch path, every
player's cumulative score is non-decreasing across every dispatched action
(round scores, which are never negative, are added exactly once at round
end; round setup never touches the running total), and `updateScores`
likewise only ever adds to the running total. The gameSlice path does not
have this property (see the counterexample): its new-round reset zeroes
scores mid-session and its `calculateScores` overwrites instead of
accumulating. -/
theorem c7_nn_cumulative_scores_monotone :
    (∀ (s : NNState) (ds : List NNDispatch) (os : List (String × Int))
      (pid : String) (p : Player),
      alookup s.entities.players pid = some p →
      ∃ q, alookup (nnRun s ds os).entities.players pid = some q ∧
        p.score ≤ q.score) ∧
    (∀ (s : NNState) (pid : String) (p q : Player),
      alookup s.entities.players pid = some p →
      (nnUpdateScores s).toOption.bind
        (fun t => alookup t.entities.players pid) = some q →
      p.score ≤ q.score) := by
  constructor
  · intro s ds os pid p hp
    exact nnRun_scoresLE ds s os pid p hp
  · intro s pid p q hp hq
    cases hu : nnUpdateScores s with
    | error e =>
      rw [hu] at hq
      cases hq
    | ok t =>
      rw [hu] at hq
      simp only [Except.toOption, Option.some_bind] at hq
      have hle : scoresLE s.entities.players t.entities.players := by
        simp only [nnUpdateScores, except_pure_eq_ok] at hu
        obtain ⟨ps1, hps1, hu⟩ := except_bind_ok_elim hu
        injection hu with hu
        subst hu
        exact nnScoreRound_scoresLE _ _ _ _ hps1
      obtain ⟨q', hq', hle'⟩ := hle pid p hp
      rw [hq'] at hq
      injection hq with hq
      subst hq
      exact hle'

/-- C7 (amended, witness): the monotonicity statement instantiated on the
Ninety-Nine initial state for three players, one dispatched (and rejected)
`PLACE_BID` action, and one `updateScores` call. -/
theorem c7_nn_cumulative_scores_monotone_witness :
    (∃ q, alookup
        (nnRun (nnCreateInitialState ["p1", "p2", "p3"] none)
          [⟨"PLACE_BID", "p1",
            { playerId := some "p1", cardId := none, cardIds := some ["h1"] }, []⟩]
          [("u", 5)]).entities.players "p1" = some q ∧
      ({ id := "p1", name := "Player 1", handIds := [], bidCardIds := [],
         revealBid := false, tricksWon := 0, score := 0, isActive := true,
         hasDeclaration := some false } : Player).score ≤ q.score) ∧
    ({ id := "p1", name := "Player 1", handIds := [], bidCardIds := [],
       revealBid := false, tricksWon := 0, score := 0, isActive := true,
       hasDeclaration := some false } : Player).score ≤
      ({ id := "p1", name := "Player 1", handIds := [], bidCardIds := [],
         revealBid := false, tricksWon := 0, score := 0, isActive := true,
         hasDeclaration := some false } : Player).score :=
  ⟨c7_nn_cumulative_scores_monotone.1 (nnCreateInitialState ["p1", "p2", "p3"] none)
      [⟨"PLACE_BID", "p1",
        { playerId := some "p1", cardId := none, cardIds := some ["h1"] }, []⟩]
      [("u", 5)] "p1" _ rfl,
   c7_nn_cumulative_scores_monotone.2 (nnCreateInitialState ["p1"] none) "p1" _ _
     rfl rfl⟩

/-- C6 (witness): the statement instantiated on a 3-card deck with
playerCount = 2, cardsPerPlayer = 1. -/
theorem c6_dealCards_exact_and_conserving_witness :
    (dealCards [mkCard "e1" .spades .ace, mkCard "e2" .hearts .king,
      mkCard "e3" .clubs .queen] 2 1).hands.length = 2 ∧
    (∀ h ∈ (dealCards [mkCard "e1" .spades .ace, mkCard "e2" .hearts .king,
      mkCard "e3" .clubs .queen] 2 1).hands, h.length = 1) ∧
    (dealCards [mkCard "e1" .spades .ace, mkCard "e2" .hearts .king,
      mkCard "e3" .clubs .queen] 2 1).turnupCard.isSome ∧
    (dealCards [mkCard "e1" .spades .ace, mkCard "e2" .hearts .king,
      mkCard "e3" .clubs .queen] 2 1).remainingDeck.length +
      handsSum (dealCards [mkCard "e1" .spades .ace, mkCard "e2" .hearts .king,
        mkCard "e3" .clubs .queen] 2 1).hands + 1 = 3 :=
  c6_dealCards_exact_and_conserving
    [mkCard "e1" .spades .ace, mkCard "e2" .hearts .king, mkCard "e3" .clubs .queen]
    2 1 (by decide)

/-- C8: in every state reachable from a variant's initial state by dispatched
actions, for any supported player count (3-5 for Ninety-Nine, 3-6 for Hearts),
the current-trick slot array `currentTrickCardIds` has length equal to the
number of players — including immediately after a trick is resolved and the
slots are cleared (the reset writes `Array(playerIds.length).fill(null)`). -/
theorem c8_trick_slot_length_invariant
    (n : Nat) (pids : List String) (hlen : pids.length = n)
    (stNN : Option NNSettingsInput) (stH : Option HSettingsInput)
    (dsNN : List NNDispatch) (dsH : List HDispatch)
    (osNN osH : List (String × Int)) :
    (3 ≤ n → n ≤ 5 →
      (nnRun (nnCreateInitialState pids stNN) dsNN osNN).currentTrickCardIds.length = n) ∧
    (3 ≤ n → n ≤ 6 →
      (hRun (heartsCreateInitialState pids stH) dsH osH).currentTrickCardIds.length = n) := by
  constructor
  · intro h3 h5
    obtain ⟨hpl, hinv⟩ := nnRun_inv dsNN (nnCreateInitialState pids stNN) osNN
    have h0 : slotsInvNN (nnCreateInitialState pids stNN) := by
      show (List.replicate pids.length (none : Option String)).length = pids.length
      simp [List.length_replicate]
    have hf := hinv h0
    unfold slotsInvNN at hf
    rw [hf, hpl]
    exact hlen
  · intro h3 h6
    obtain ⟨hpl, hinv⟩ := hRun_inv dsH (heartsCreateInitialState pids stH) osH
    have h0 : slotsInvH (heartsCreateInitialState pids stH) := by
      show (List.replicate pids.length (none : Option String)).length = pids.length
      simp [List.length_replicate]
    have hf := hinv h0
    unfold slotsInvH at hf
    rw [hf, hpl]
    exact hlen

/-- C8 (witness): the statement instantiated at three players on a concrete
dispatch (an out-of-phase PLAY_CARD for Ninety-Nine, a PASS_CARDS for Hearts)
with concrete oracles. -/
theorem c8_trick_slot_length_invariant_witness :
    3 ≤ 3 ∧ 3 ≤ 5 ∧ 3 ≤ 6 ∧
    (nnRun (nnCreateInitialState ["p1", "p2", "p3"] none)
      [⟨"PLAY_CARD", "p1",
        { playerId := some "p1", cardId := some "c1", cardIds := none }, []⟩]
      [("u", 0)]).currentTrickCardIds.length = 3 ∧
    (hRun (heartsCreateInitialState ["p1", "p2", "p3"] none)
      [⟨"PASS_CARDS", "p1",
        { playerId := some "p1", cardId := none, cardIds := some ["a", "b", "c"] }, []⟩]
      [("u", 0)]).currentTrickCardIds.length = 3 :=
  ⟨by decide, by decide, by decide,
   (c8_trick_slot_length_invariant 3 ["p1", "p2", "p3"] rfl none none
      [⟨"PLAY_CARD", "p1",
        { playerId := some "p1", cardId := some "c1", cardIds := none }, []⟩]
      [⟨"PASS_CARDS", "p1",
        { playerId := some "p1", cardId := none, cardIds := some ["a", "b", "c"] }, []⟩]
      [("u", 0)] [("u", 0)]).1 (by decide) (by decide),
   (c8_trick_slot_length_invariant 3 ["p1", "p2", "p3"] rfl none none
      [⟨"PLAY_CARD", "p1",
        { playerId := some "p1", cardId := some "c1", cardIds := none }, []⟩]
      [⟨"PASS_CARDS", "p1",
        { playerId := some "p1", cardId := none, cardIds := some ["a", "b", "c"] }, []⟩]
      [("u", 0)] [("u", 0)]).2 (by decide) (by decide)⟩

/-- C9 (counterexample): two replays of the very same dispatch (same state,
same deck, same accepted action) do not end in identical states — the
archived trick record carries the wall-clock `Date.now()` value, so the run
with timestamp oracle `0` and the run with timestamp oracle `1` produce
different states. -/
theorem c9_counterexample_timestamp_differs :
    (nnRun c9DemoState [c9Dispatch] [("u", 0)]).lastTricks.map TrickHistory.timestamp
      = [0] ∧
    (nnRun c9DemoState [c9Dispatch] [("u", 1)]).lastTricks.map TrickHistory.timestamp
      = [1] ∧
    ¬ nnRun c9DemoState [c9Dispatch] [("u", 0)] =
        nnRun c9DemoState [c9Dispatch] [("u", 1)] := by
  refine ⟨rfl, rfl, fun hEq => ?_⟩
  have h0 := congrArg (fun s => s.lastTricks.map TrickHistory.timestamp) hEq
  simp only [] at h0
  rw [show (nnRun c9DemoState [c9Dispatch] [("u", 0)]).lastTricks.map
      TrickHistory.timestamp = [0] from rfl,
    show (nnRun c9DemoState [c9Dispatch] [("u", 1)]).lastTricks.map
      TrickHistory.timestamp = [1] from rfl] at h0
  exact absurd h0 (by decide)

/-- C9: replaying the same dispatch sequence (each dispatch carrying the
same fresh deck, i.e. the same shuffle output) from erasure-equal states
reproduces the entire state up to the environment-generated trick-history
metadata — every hand, trick resolution, archived trick content, winner and
score is equal between the two runs — but not the states themselves, whose
archived `uuidv4()` ids and `Date.now()` timestamps follow the environment,
not the action sequence. -/
theorem c9_replay_equal_up_to_generated_ids (s₁ s₂ : NNState)
    (h : eraseNN s₁ = eraseNN s₂) (ds : List NNDispatch)
    (os₁ os₂ : List (String × Int)) :
    eraseNN (nnRun s₁ ds os₁) = eraseNN (nnRun s₂ ds os₂) :=
  nnRun_erased ds s₁ s₂ h os₁ os₂

/-- C9 (witness): the statement instantiated on the concrete mid-trick
state and trick-completing dispatch, with timestamp oracles 0 and 1. -/
theorem c9_replay_equal_up_to_generated_ids_witness :
    eraseNN (nnRun c9DemoState [c9Dispatch] [("u1", 0)]) =
      eraseNN (nnRun c9DemoState [c9Dispatch] [("u2", 1)]) :=
  c9_replay_equal_up_to_generated_ids c9DemoState c9DemoState rfl [c9Dispatch]
    [("u1", 0)] [("u2", 1)]

end CardGames
